import Mathlib

/-!
# The evaluation engine of the autumn interpreter

A shallow embedding of `src/src/evaluator.cc` and `src/src/builtin.cc`.

Conventions of the embedding.

* A `std::shared_ptr<Object>` / `const Object*` that the code may hold as `nullptr`
  is an `Option Object` (`Ptr`); dereferencing `none` is the fault `null_deref`.
* An `ast::Node*` is a `Node`; the null pointer is the constructor `Node.nil`.
* `int64_t` values are `Int`s kept in `[-2^63, 2^63)`; `+`, `-`, `*` and unary `-`
  wrap modulo `2^64`; `/` has no result (fault `undefined_division`) where C++ gives
  none: a zero divisor, or `INT64_MIN / -1`.
* Objects whose address the evaluator can observe (`left == right` on pointers) carry
  the address they were allocated at; `State.next` is the allocator.
* Environments live in a heap (`State.envs`) and are referred to by index, so a
  closure shares, and never copies, the environment it captured.
* `eval` recurses without bound in the source; here it takes fuel, and the functions
  it calls take the evaluator of the remaining fuel as the argument `ev`.
* A call expression starts a thread that runs `apply_function` and returns an `Async`
  at once.  The embedding follows the schedule in which that thread runs to completion
  before the spawning thread continues, so an `Async` carries the result of its task.
  What a program does on another interleaving of a task with the thread that started
  it (a task that reads a variable after a later `let` has rebound it, a task that
  never ends) is not described by the embedding.
-/

namespace autumn

/-! ## Syntax trees -/

/-- The node behind an `ast::Node*`; `nil` is the null pointer. -/
inductive Node where
  | nil
  | program (statments : List Node)
  | expressionStatment (expression : Node)
  | blockStatment (statments : List Node)
  | returnStatment (expression : Node)
  | letStatment (identifier : String) (expression : Node)
  | integerLiteral (value : Int)
  | booleanLiteral (value : Bool)
  | stringLiteral (value : String)
  | arrayLiteral (elements : List Node)
  | hashLiteral (pairs : List (Node × Node))
  | prefixExpression (op : String) (right : Node)
  | infixExpression (op : String) (left : Node) (right : Node)
  | ifExpression (condition : Node) (consequence : Node) (alternative : Node)
  | identifier (value : String)
  | functionLiteral (parameters : List String) (body : Node)
  | callExpression (function : Node) (arguments : List Node)
  | indexExpression (left : Node) (index : Node)

/-! ## Objects -/

/-- The native functions of `builtin::BUILTINS`. -/
inductive BuiltinFunction where
  | len | first | last | push | rest | puts | range
  deriving DecidableEq

/-- The objects of the interpreter.  `boolean` and `null` are the shared constants
`constants::True`, `constants::False` and `constants::Null`, the only objects of their
classes, so they carry no address. -/
inductive Object where
  | integer (value : Int)
  | boolean (value : Bool)
  | null
  | string (value : String)
  | array (elements : List (Option Object))
  | hash (addr : Nat) (pairs : List (Option Object × Option Object))
  | function (addr : Nat) (parameters : List String) (body : Node) (env : Nat)
  | builtin (addr : Nat) (fn : BuiltinFunction)
  | returnValue (addr : Nat) (value : Object)
  | error (addr : Nat) (message : String)
  | async (addr : Nat) (result : Option Object)

/-- A possibly null pointer to an object. -/
abbrev Ptr := Option Object

/-- The dynamic class of an object, what `typeid(*obj)` compares. -/
inductive Kind where
  | integer | boolean | null | string | array | hash | function | builtin
  | returnValue | error | async
  deriving DecidableEq

/-- The result of `typeid(*obj)`. -/
def Object.kind : Object → Kind
  | .integer _ => .integer
  | .boolean _ => .boolean
  | .null => .null
  | .string _ => .string
  | .array _ => .array
  | .hash _ _ => .hash
  | .function _ _ _ _ => .function
  | .builtin _ _ => .builtin
  | .returnValue _ _ => .returnValue
  | .error _ _ => .error
  | .async _ _ => .async

/-- Pointer equality `left == right`.  The evaluator compares addresses only of two
objects of one class that is none of Integer, String, Array; on other pairs the
function answers `false` and is never consulted. -/
def Object.same : Object → Object → Bool
  | .boolean a, .boolean b => a == b
  | .null, .null => true
  | .hash a _, .hash b _ => a == b
  | .function a _ _ _, .function b _ _ _ => a == b
  | .builtin a _, .builtin b _ => a == b
  | .returnValue a _, .returnValue b _ => a == b
  | .error a _, .error b _ => a == b
  | .async a _, .async b _ => a == b
  | _, _ => false

/-- Ways in which the C++ program has no result. -/
inductive Fault where
  | out_of_fuel
  | null_deref
  | bad_cast
  | undefined_division
  deriving DecidableEq

/-! ## Environments and the evaluator state -/

/-- Modelled from the spec: `object::Environment` (object.h is not among the sources):
"an owned mapping from identifier name to Value, plus an optional reference to an
enclosing (parent) Environment". -/
structure Environment where
  store : List (String × Ptr)
  outer : Option Nat

/-- The heap of environments, the object allocator and the objects printed so far. -/
structure State where
  envs : List Environment
  next : Nat
  output : List Object

/-- The state of a fresh `Evaluator`: the root environment `_env` is environment 0. -/
def State.initial : State :=
  { envs := [{ store := [], outer := none }], next := 0, output := [] }

/-- The state after one allocation. -/
def State.bump (st : State) : State :=
  { st with next := st.next + 1 }

/-- Modelled from the spec: `Environment::get` (object.h is not among the sources):
"Lookup walks outward through parents until found or exhausted".  The walk takes as
many steps as there are environments at most. -/
def env_get (envs : List Environment) : Nat → Nat → String → Ptr
  | 0, _, _ => none
  | steps + 1, env, name =>
    match envs[env]? with
    | none => none
    | some e =>
      match e.store.lookup name with
      | some val => val
      | none =>
        match e.outer with
        | none => none
        | some o => env_get envs steps o name

/-- The lookup `env->get(name)`. -/
def State.get (st : State) (env : Nat) (name : String) : Ptr :=
  env_get st.envs st.envs.length env name

/-- Modelled from the spec: the map update behind `Environment::set`: "inserts/overwrites
in the local scope, no error possible". -/
def store_set (store : List (String × Ptr)) (name : String) (val : Ptr) : List (String × Ptr) :=
  (name, val) :: store.filter (fun p => p.1 != name)

/-- The update `env->set(name, val)`. -/
def State.set (st : State) (env : Nat) (name : String) (val : Ptr) : State :=
  match st.envs[env]? with
  | none => st
  | some e => { st with envs := st.envs.set env { e with store := store_set e.store name val } }

/-- Modelled from the spec: the constructor `Environment(outer)`, "child_of(parent)": a new
environment with no binding of its own and `outer` as its parent.  Returns its index. -/
def State.new_env (st : State) (outer : Nat) : Nat × State :=
  (st.envs.length, { st with envs := st.envs ++ [{ store := [], outer := some outer }] })

/-! ## Collaborators that are not among the sources -/

/-- What the evaluator takes from headers that are not among the sources: the colour
escapes of color.h, `Object::type()`, the error list of the parser, and the two
operations of `object::Hash`. -/
structure Config where
  light : String
  off : String
  type_name : Object → String
  errors : List String
  hash_append : List (Ptr × Ptr) → Ptr → Ptr → List (Ptr × Ptr)
  hash_get : Nat → List (Ptr × Ptr) → Ptr → Ptr

/-- Replaces each `{}` of the format by the next argument. -/
def format_chars : List Char → List String → List Char
  | [], _ => []
  | [c], _ => [c]
  | c :: d :: cs, args =>
    if c = '{' ∧ d = '}' then
      match args with
      | [] => c :: d :: format_chars cs []
      | a :: rest => a.data ++ format_chars cs rest
    else c :: format_chars (d :: cs) args

/-- Modelled from the spec: `format` (format.h is not among the sources), the formatter
behind messages such as "wrong number of arguments. expected 1, got 2". -/
def format (fmt : String) (args : List String) : String :=
  ⟨format_chars fmt.data args⟩

/-- Modelled from the spec: `new_error`: an `Error` object whose message is the formatted
text, allocated at `adr`. -/
def new_error (adr : Nat) (fmt : String) (args : List String) : Object :=
  .error adr (format fmt args)

/-- Modelled from the spec: `Async::object()`, forcing: "blocks until the spawned task's
result cell is filled, then substitutes the filled Value".  The evaluator calls it on an
`Async` only. -/
def Object.object : Object → Ptr
  | .async _ result => result
  | _ => none

/-! ## Fixed-width integers -/

/-- The least `int64_t`. -/
def int64_min : Int := -9223372036854775808

/-- The value is an `int64_t`. -/
def in_int64 (x : Int) : Prop := -9223372036854775808 ≤ x ∧ x < 9223372036854775808

instance (x : Int) : Decidable (in_int64 x) := by
  unfold in_int64; infer_instance

/-- Two's complement reduction of an integer to 64 bits. -/
def wrap64 (x : Int) : Int :=
  (x + 9223372036854775808) % 18446744073709551616 - 9223372036854775808

/-- Two's complement reduction of an integer to 32 bits, the conversion to `int`. -/
def wrap32 (x : Int) : Int :=
  (x + 2147483648) % 4294967296 - 2147483648

/-! ## Operators -/

/-- The function `Evaluator::native_bool_to_boolean_object`. -/
def native_bool_to_boolean_object (input : Bool) : Object :=
  if input then .boolean true else .boolean false

/-- The function `Evaluator::eval_integer_infix_expression`. -/
def eval_integer_infix_expression (cfg : Config) (adr : Nat) (op : String)
    (left right : Object) : Except Fault Object :=
  match left, right with
  | .integer l, .integer r =>
    if op = "+" then .ok (.integer (wrap64 (l + r)))
    else if op = "-" then .ok (.integer (wrap64 (l - r)))
    else if op = "*" then .ok (.integer (wrap64 (l * r)))
    else if op = "/" then
      if r = 0 ∨ (l = int64_min ∧ r = -1) then .error .undefined_division
      else .ok (.integer (Int.tdiv l r))
    else if op = "<" then .ok (native_bool_to_boolean_object (decide (l < r)))
    else if op = "<=" then .ok (native_bool_to_boolean_object (decide (l ≤ r)))
    else if op = ">" then .ok (native_bool_to_boolean_object (decide (l > r)))
    else if op = ">=" then .ok (native_bool_to_boolean_object (decide (l ≥ r)))
    else if op = "==" then .ok (native_bool_to_boolean_object (decide (l = r)))
    else if op = "!=" then .ok (native_bool_to_boolean_object (decide (l ≠ r)))
    else .ok (new_error adr "unknown operator: {}`{} {} {}`{}"
      [cfg.light, cfg.type_name left, op, cfg.type_name right, cfg.off])
  | _, _ => .error .bad_cast

/-- The idiom `if (typeid(*obj) == typeid(object::Async)) obj = obj->cast<Async>()->object()`
that precedes every use of an operand. -/
def unwrap_async (obj : Object) : Ptr :=
  if obj.kind = .async then obj.object else some obj

/-- The function `Evaluator::eval_string_infix_expression`. -/
def eval_string_infix_expression (cfg : Config) (adr : Nat) (op : String)
    (left right : Object) : Except Fault Object :=
  match left, right with
  | .string l, .string r =>
    if op = "+" then .ok (.string (l ++ r))
    else .ok (new_error adr "unknown operator: {}`{} {} {}`{}"
      [cfg.light, cfg.type_name left, op, cfg.type_name right, cfg.off])
  | _, _ => .error .bad_cast

/-- The function `Evaluator::eval_array_infix_expression`. -/
def eval_array_infix_expression (cfg : Config) (adr : Nat) (op : String)
    (left right : Object) : Except Fault Object :=
  match left, right with
  | .array l, .array r =>
    if op = "+" then .ok (.array (l ++ r))
    else .ok (new_error adr "unknown operator: {}`{} {} {}`{}"
      [cfg.light, cfg.type_name left, op, cfg.type_name right, cfg.off])
  | _, _ => .error .bad_cast

/-- The function `Evaluator::eval_infix_expression`.  Both operands are dereferenced
after they were replaced by the results of their tasks. -/
def eval_infix_expression (cfg : Config) (adr : Nat) (op : String)
    (left right : Object) : Except Fault Object :=
  match unwrap_async left, unwrap_async right with
  | some l, some r =>
    if l.kind = .integer ∧ r.kind = .integer then
      eval_integer_infix_expression cfg adr op l r
    else if l.kind = .string ∧ r.kind = .string then
      eval_string_infix_expression cfg adr op l r
    else if l.kind = .array ∧ r.kind = .array then
      eval_array_infix_expression cfg adr op l r
    else if l.kind ≠ r.kind then
      .ok (new_error adr "type mismatch: {}`{} {} {}`{}"
        [cfg.light, cfg.type_name l, op, cfg.type_name r, cfg.off])
    else if op = "==" then .ok (native_bool_to_boolean_object (l.same r))
    else if op = "!=" then .ok (native_bool_to_boolean_object (!(l.same r)))
    else .ok (new_error adr "unknown operator: {}`{} {} {}`{}"
      [cfg.light, cfg.type_name l, op, cfg.type_name r, cfg.off])
  | _, _ => .error .null_deref

/-- The function `Evaluator::eval_bang_operator_expression`: the operand is compared with
the three constants and never dereferenced, so it may be null. -/
def eval_bang_operator_expression (right : Ptr) : Object :=
  match right with
  | some .null => .boolean true
  | some (.boolean true) => .boolean false
  | some (.boolean false) => .boolean true
  | _ => .boolean false

/-- The function `Evaluator::eval_minus_prefix_operator_expression`. -/
def eval_minus_prefix_operator_expression (cfg : Config) (adr : Nat)
    (right : Ptr) : Except Fault Object :=
  match right with
  | none => .error .null_deref
  | some (.integer value) => .ok (.integer (wrap64 (-value)))
  | some r => .ok (new_error adr "unknown operator: {}`-{}`{}"
      [cfg.light, cfg.type_name r, cfg.off])

/-- The function `Evaluator::eval_prefix_expression`. -/
def eval_prefix_expression (cfg : Config) (adr : Nat) (op : String)
    (right : Object) : Except Fault Object :=
  let right := unwrap_async right
  if op = "!" then .ok (eval_bang_operator_expression right)
  else if op = "-" then eval_minus_prefix_operator_expression cfg adr right
  else
    match right with
    | none => .error .null_deref
    | some r => .ok (new_error adr "unknown operator: {}`{}{}`{}"
        [cfg.light, op, cfg.type_name r, cfg.off])

/-- The function `Evaluator::is_truthy`. -/
def is_truthy (obj : Ptr) : Bool :=
  match obj with
  | some .null => false
  | some (.boolean true) => true
  | some (.boolean false) => false
  | _ => true

/-- The function `Evaluator::is_error`. -/
def is_error (obj : Ptr) : Except Fault Bool :=
  match obj with
  | none => .error .null_deref
  | some o => .ok (decide (o.kind = .error))

/-- The function `Evaluator::eval_index_expression`.  The index `idx` is an `int64_t`
and `elems.size()` a `size_t`: `idx += elems.size()` wraps to 64 bits, and in
`idx >= elems.size()` the index, by then not negative, is compared as unsigned. -/
def eval_index_expression (cfg : Config) (adr : Nat) (obj index : Object) : Except Fault Ptr :=
  match unwrap_async obj with
  | none => .error .null_deref
  | some (.array elems) =>
    match unwrap_async index with
    | none => .error .null_deref
    | some (.integer value) =>
      let idx := if value < 0 then wrap64 (value + elems.length) else value
      if idx < 0 ∨ idx ≥ elems.length then .ok (some .null)
      else .ok (elems.getD idx.toNat none)
    | some _ => .ok (some (new_error adr "index operator not supported: {}`{}`{}"
        [cfg.light, cfg.type_name (.array elems), cfg.off]))
  | some (.hash _ pairs) => .ok (cfg.hash_get adr pairs (unwrap_async index))
  | some o => .ok (some (new_error adr "index operator not supported: {}`{}`{}"
      [cfg.light, cfg.type_name o, cfg.off]))

/-! ## Builtin functions (builtin.cc) -/

/-- The table `builtin::BUILTINS`. -/
def BUILTINS (name : String) : Option BuiltinFunction :=
  if name = "len" then some .len
  else if name = "first" then some .first
  else if name = "last" then some .last
  else if name = "push" then some .push
  else if name = "rest" then some .rest
  else if name = "puts" then some .puts
  else if name = "range" then some .range
  else none

/-- The error object of an argument count other than the expected one. -/
def wrong_number (adr : Nat) (expected : String) (got : Nat) : Ptr :=
  some (.error adr (format ("wrong number of arguments. expected " ++ expected ++ ", got {}")
    [toString got]))

/-- The function `builtin::len`. -/
def builtin_len (cfg : Config) (adr : Nat) (args : List Ptr) : Except Fault Ptr :=
  match args with
  | [arg] =>
    match arg with
    | none => .error .null_deref
    | some (.string value) => .ok (some (.integer (wrap64 value.utf8ByteSize)))
    | some (.array elems) => .ok (some (.integer (wrap64 elems.length)))
    | some o => .ok (some (.error adr
        (format "argument to `len` not supported, got {}" [cfg.type_name o])))
  | _ => .ok (wrong_number adr "1" args.length)

/-- The function `builtin::first`. -/
def builtin_first (cfg : Config) (adr : Nat) (args : List Ptr) : Except Fault Ptr :=
  match args with
  | [arg] =>
    match arg with
    | none => .error .null_deref
    | some (.array elems) =>
      match elems with
      | [] => .ok (some .null)
      | e :: _ => .ok e
    | some o => .ok (some (.error adr
        (format "argument to `front` not supported, got {}" [cfg.type_name o])))
  | _ => .ok (wrong_number adr "1" args.length)

/-- The function `builtin::last`. -/
def builtin_last (cfg : Config) (adr : Nat) (args : List Ptr) : Except Fault Ptr :=
  match args with
  | [arg] =>
    match arg with
    | none => .error .null_deref
    | some (.array elems) =>
      match elems.getLast? with
      | none => .ok (some .null)
      | some e => .ok e
    | some o => .ok (some (.error adr
        (format "argument to `last` not supported, got {}" [cfg.type_name o])))
  | _ => .ok (wrong_number adr "1" args.length)

/-- The function `builtin::push`. -/
def builtin_push (cfg : Config) (adr : Nat) (args : List Ptr) : Except Fault Ptr :=
  match args with
  | [arg0, arg1] =>
    match arg0 with
    | none => .error .null_deref
    | some (.array elems) => .ok (some (.array (elems ++ [arg1])))
    | some o => .ok (some (.error adr
        (format "argument to `push` not supported, got {}" [cfg.type_name o])))
  | _ => .ok (wrong_number adr "2" args.length)

/-- The function `builtin::rest`. -/
def builtin_rest (cfg : Config) (adr : Nat) (args : List Ptr) : Except Fault Ptr :=
  match args with
  | [arg] =>
    match arg with
    | none => .error .null_deref
    | some (.array elems) =>
      match elems with
      | [] => .ok (some .null)
      | _ :: tail => .ok (some (.array tail))
    | some o => .ok (some (.error adr
        (format "argument to `push` not supported, got {}" [cfg.type_name o])))
  | _ => .ok (wrong_number adr "1" args.length)

/-- The function `builtin::puts`: every argument is dereferenced and printed. -/
def builtin_puts (args : List Ptr) (st : State) : Except Fault (Ptr × State) :=
  match args with
  | [] => .ok (some .null, st)
  | none :: _ => .error .null_deref
  | some e :: rest => builtin_puts rest { st with output := st.output ++ [e] }

/-- The first argument of `range` that is no Integer, dereferencing each on the way. -/
def range_check (cfg : Config) (adr : Nat) : List Ptr → Except Fault (Option Object)
  | [] => .ok none
  | none :: _ => .error .null_deref
  | some (.integer _) :: rest => range_check cfg adr rest
  | some o :: _ => .ok (some (.error adr
      (format "argument type to `range` is int, get {}" [cfg.type_name o])))

/-- The bound of `range` read from an argument: the `int64_t` converted to `int`. -/
def range_bound : Option Ptr → Int
  | some (some (.integer value)) => wrap32 value
  | _ => 0

/-- The function `builtin::range`; `l` and `r` are `int`s. -/
def builtin_range (cfg : Config) (adr : Nat) (args : List Ptr) : Except Fault Ptr :=
  if args.length ≠ 1 ∧ args.length ≠ 2 then .ok (wrong_number adr "1 or 2" args.length)
  else
    match range_check cfg adr args with
    | .error f => .error f
    | .ok (some e) => .ok (some e)
    | .ok none =>
      let r := range_bound args.getLast?
      let l := if args.length = 2 then range_bound args.head? else 0
      .ok (some (.array ((List.range (r - l).toNat).map (fun k => some (.integer (l + k))))))

/-- The call `builtin_fn->run(args)`. -/
def BuiltinFunction.run (cfg : Config) (fn : BuiltinFunction) (args : List Ptr)
    (st : State) : Except Fault (Ptr × State) :=
  match fn with
  | .puts => builtin_puts args st
  | .len => (builtin_len cfg st.next args).map (fun r => (r, st.bump))
  | .first => (builtin_first cfg st.next args).map (fun r => (r, st.bump))
  | .last => (builtin_last cfg st.next args).map (fun r => (r, st.bump))
  | .push => (builtin_push cfg st.next args).map (fun r => (r, st.bump))
  | .rest => (builtin_rest cfg st.next args).map (fun r => (r, st.bump))
  | .range => (builtin_range cfg st.next args).map (fun r => (r, st.bump))

/-! ## Statements, calls and the evaluator -/

/-- What an evaluation yields: the returned pointer and the state it leaves, or a fault. -/
abbrev Result := Except Fault (Ptr × State)

/-- The type of `Evaluator::eval(node, env)` once its fuel is fixed. -/
abbrev Evaluation := Node → Nat → State → Result

/-- The test `node == nullptr`. -/
def Node.is_null : Node → Bool
  | .nil => true
  | _ => false

/-- The loop of `Evaluator::eval_expressions`. -/
def eval_expressions_loop (ev : Evaluation) (env : Nat) :
    List Node → List Ptr → State → Except Fault (List Ptr × State)
  | [], results, st => .ok (results, st)
  | exp :: exps, results, st =>
    match ev exp env st with
    | .error f => .error f
    | .ok (val, st1) =>
      match is_error val with
      | .error f => .error f
      | .ok true => .ok ([val], st1)
      | .ok false => eval_expressions_loop ev env exps (results ++ [val]) st1

/-- The function `Evaluator::eval_expressions`. -/
def eval_expressions (ev : Evaluation) (exps : List Node) (env : Nat) (st : State) :
    Except Fault (List Ptr × State) :=
  eval_expressions_loop ev env exps [] st

/-- The loop of `Evaluator::extend_function_env`: `params[i]` is set to `args[i]` while
both exist. -/
def bind_parameters (env : Nat) : List String → List Ptr → State → State
  | param :: params, arg :: args, st => bind_parameters env params args (st.set env param arg)
  | _, _, st => st

/-- The function `Evaluator::extend_function_env`, on the parameters and the captured
environment of the function.  Returns the new environment. -/
def extend_function_env (parameters : List String) (fn_env : Nat) (args : List Ptr)
    (st : State) : Nat × State :=
  let fresh := st.new_env fn_env
  (fresh.1, bind_parameters fresh.1 parameters args fresh.2)

/-- The loop of `apply_function` that replaces every `Async` argument by the result of its
task. -/
def unwrap_arguments : List Ptr → Except Fault (List Ptr)
  | [] => .ok []
  | none :: _ => .error .null_deref
  | some obj :: rest =>
    match unwrap_arguments rest with
    | .error f => .error f
    | .ok tail => .ok (unwrap_async obj :: tail)

/-- The end of `apply_function`: a null result stays null, a `ReturnValue` gives its value. -/
def unwrap_return_value : Ptr → Ptr
  | none => none
  | some (.returnValue _ value) => some value
  | some val => some val

/-- The function `Evaluator::apply_function`. -/
def apply_function (cfg : Config) (ev : Evaluation) (fn : Object) (args : List Ptr)
    (st : State) : Result :=
  match unwrap_arguments args with
  | .error f => .error f
  | .ok args =>
    match unwrap_async fn with
    | none => .error .null_deref
    | some (.function _ parameters body fn_env) =>
      let extended := extend_function_env parameters fn_env args st
      match ev body extended.1 extended.2 with
      | .error f => .error f
      | .ok (val, st1) => .ok (unwrap_return_value val, st1)
    | some (.builtin _ builtin_fn) =>
      match builtin_fn.run cfg args st with
      | .error f => .error f
      | .ok (val, st1) => .ok (unwrap_return_value val, st1)
    | some _ => .ok (some .null, st)

/-- The loop of `Evaluator::eval_program`; `rest` is empty exactly when
`i == statments.size() - 1`.  The call `detach()` lets the thread of a task run on its
own: it changes no object and no environment, so the state stays as it is and the
`Async` is kept unforced. -/
def eval_program_loop (ev : Evaluation) (env : Nat) : List Node → Ptr → State → Result
  | [], result, st => .ok (result, st)
  | stat :: rest, _, st =>
    match ev stat env st with
    | .error f => .error f
    | .ok (none, st1) => eval_program_loop ev env rest none st1
    | .ok (some obj, st1) =>
      let forced : Ptr :=
        match obj with
        | .async _ cell => if rest.isEmpty then cell else some obj
        | _ => some obj
      match forced with
      | none => .error .null_deref
      | some (.returnValue _ value) => .ok (some value, st1)
      | some (.error adr message) => .ok (some (.error adr message), st1)
      | some result => eval_program_loop ev env rest (some result) st1

/-- The function `Evaluator::eval_program`. -/
def eval_program (ev : Evaluation) (statments : List Node) (env : Nat) (st : State) : Result :=
  eval_program_loop ev env statments none st

/-- The loop of `Evaluator::eval_statments`. -/
def eval_statments_loop (ev : Evaluation) (env : Nat) : List Node → Ptr → State → Result
  | [], result, st => .ok (result, st)
  | stat :: rest, _, st =>
    match ev stat env st with
    | .error f => .error f
    | .ok (none, st1) => eval_statments_loop ev env rest none st1
    | .ok (some result, st1) =>
      if result.kind = .returnValue ∨ result.kind = .error then .ok (some result, st1)
      else eval_statments_loop ev env rest (some result) st1

/-- The function `Evaluator::eval_statments`. -/
def eval_statments (ev : Evaluation) (statments : List Node) (env : Nat) (st : State) : Result :=
  eval_statments_loop ev env statments none st

/-- The function `Evaluator::eval_identifier`. -/
def eval_identifier (cfg : Config) (name : String) (env : Nat) (st : State) : Result :=
  match st.get env name with
  | some val => .ok (some val, st)
  | none =>
    match BUILTINS name with
    | some fn => .ok (some (.builtin st.next fn), st.bump)
    | none => .ok (some (new_error st.next "identifier not found: {}`{}`{}"
        [cfg.light, name, cfg.off]), st.bump)

/-- The function `Evaluator::eval_if_expression`. -/
def eval_if_expression (ev : Evaluation) (condition consequence alternative : Node)
    (env : Nat) (st : State) : Result :=
  if condition.is_null then .ok (some .null, st)
  else
    match ev condition env st with
    | .error f => .error f
    | .ok (cond, st1) =>
      match is_error cond with
      | .error f => .error f
      | .ok true => .ok (cond, st1)
      | .ok false =>
        if is_truthy cond ∧ ¬ consequence.is_null then ev consequence env st1
        else if ¬ alternative.is_null then ev alternative env st1
        else .ok (some .null, st1)

/-- The loop of `Evaluator::eval_hash_literal`; no pairs as result stands for the
`return nullptr` inside the loop. -/
def eval_hash_pairs (cfg : Config) (ev : Evaluation) (env : Nat) :
    List (Node × Node) → List (Ptr × Ptr) → State →
    Except Fault (Option (List (Ptr × Ptr)) × State)
  | [], ret, st => .ok (some ret, st)
  | pair :: pairs, ret, st =>
    match ev pair.1 env st with
    | .error f => .error f
    | .ok (none, st1) => .ok (none, st1)
    | .ok (some key, st1) =>
      match ev pair.2 env st1 with
      | .error f => .error f
      | .ok (none, st2) => .ok (none, st2)
      | .ok (some val, st2) =>
        eval_hash_pairs cfg ev env pairs (cfg.hash_append ret (some key) (some val)) st2

/-- The function `Evaluator::eval_hash_literal`. -/
def eval_hash_literal (cfg : Config) (ev : Evaluation) (pairs : List (Node × Node))
    (env : Nat) (st : State) : Result :=
  match eval_hash_pairs cfg ev env pairs [] st.bump with
  | .error f => .error f
  | .ok (none, st1) => .ok (none, st1)
  | .ok (some ret, st1) => .ok (some (.hash st.next ret), st1)

/-- The function `Evaluator::eval(node, env)`.  Each level of the recursion of the source
takes one unit of fuel. -/
def eval (cfg : Config) : Nat → Node → Nat → State → Result
  | 0, _, _, _ => .error .out_of_fuel
  | fuel + 1, node, env, st =>
    match node with
    | .nil =>
      .ok (some (new_error st.next "abort: {}" [String.intercalate "\n" cfg.errors]), st.bump)
    | .program statments => eval_program (eval cfg fuel) statments env st
    | .expressionStatment expression => eval cfg fuel expression env st
    | .blockStatment statments => eval_statments (eval cfg fuel) statments env st
    | .returnStatment expression =>
      match eval cfg fuel expression env st with
      | .error f => .error f
      | .ok (none, _) => .error .null_deref
      | .ok (some return_val, st1) =>
        if return_val.kind = .error then .ok (some return_val, st1)
        else .ok (some (.returnValue st1.next return_val), st1.bump)
    | .letStatment identifier expression =>
      match eval cfg fuel expression env st with
      | .error f => .error f
      | .ok (none, _) => .error .null_deref
      | .ok (some val, st1) =>
        if val.kind = .error then .ok (some val, st1)
        else .ok (none, st1.set env identifier (some val))
    | .integerLiteral value => .ok (some (.integer value), st)
    | .booleanLiteral value => .ok (some (if value then .boolean true else .boolean false), st)
    | .stringLiteral value => .ok (some (.string value), st)
    | .arrayLiteral elements =>
      match eval_expressions (eval cfg fuel) elements env st with
      | .error f => .error f
      | .ok (elems, st1) =>
        match elems with
        | [] => .ok (some (.array elems), st1)
        | first :: _ =>
          match is_error first with
          | .error f => .error f
          | .ok true => .ok (first, st1)
          | .ok false => .ok (some (.array elems), st1)
    | .hashLiteral pairs => eval_hash_literal cfg (eval cfg fuel) pairs env st
    | .prefixExpression op right =>
      match eval cfg fuel right env st with
      | .error f => .error f
      | .ok (none, _) => .error .null_deref
      | .ok (some r, st1) =>
        if r.kind = .error then .ok (some r, st1)
        else
          match eval_prefix_expression cfg st1.next op r with
          | .error f => .error f
          | .ok val => .ok (some val, st1.bump)
    | .infixExpression op left right =>
      match eval cfg fuel left env st with
      | .error f => .error f
      | .ok (none, _) => .error .null_deref
      | .ok (some l, st1) =>
        if l.kind = .error then .ok (some l, st1)
        else
          match eval cfg fuel right env st1 with
          | .error f => .error f
          | .ok (none, _) => .error .null_deref
          | .ok (some r, st2) =>
            if r.kind = .error then .ok (some r, st2)
            else
              match eval_infix_expression cfg st2.next op l r with
              | .error f => .error f
              | .ok val => .ok (some val, st2.bump)
    | .ifExpression condition consequence alternative =>
      eval_if_expression (eval cfg fuel) condition consequence alternative env st
    | .identifier value => eval_identifier cfg value env st
    | .functionLiteral parameters body =>
      .ok (some (.function st.next parameters body env), st.bump)
    | .callExpression function arguments =>
      match eval cfg fuel function env st with
      | .error f => .error f
      | .ok (none, _) => .error .null_deref
      | .ok (some fn, st1) =>
        if fn.kind = .error then .ok (some fn, st1)
        else
          match eval_expressions (eval cfg fuel) arguments env st1 with
          | .error f => .error f
          | .ok (args, st2) =>
            let failed : Except Fault Bool :=
              match args with
              | [] => .ok false
              | first :: _ => is_error first
            match failed with
            | .error f => .error f
            | .ok true => .ok (args.head?.join, st2)
            | .ok false =>
              match apply_function cfg (eval cfg fuel) fn args st2 with
              | .error f => .error f
              | .ok (cell, st3) => .ok (some (.async st3.next cell), st3.bump)
    | .indexExpression left index =>
      match eval cfg fuel left env st with
      | .error f => .error f
      | .ok (none, _) => .error .null_deref
      | .ok (some array, st1) =>
        if array.kind = .error then .ok (some array, st1)
        else
          match eval cfg fuel index env st1 with
          | .error f => .error f
          | .ok (none, _) => .error .null_deref
          | .ok (some idx, st2) =>
            if idx.kind = .error then .ok (some idx, st2)
            else
              match eval_index_expression cfg st2.next array idx with
              | .error f => .error f
              | .ok val => .ok (val, st2.bump)

/-- The function `Evaluator::eval(input)` on the tree the parser returned for the input. -/
def eval_input (cfg : Config) (fuel : Nat) (program : Node) (st : State) : Result :=
  eval cfg fuel program 0 st

/-! ## A configuration and syntax for examples -/

/-- A configuration without colours, with a type name per class, no parse error, and a
hash that appends pairs and finds none. -/
def Config.plain : Config :=
  { light := ""
    off := ""
    type_name := fun o =>
      match o.kind with
      | .integer => "INTEGER" | .boolean => "BOOLEAN" | .null => "NULL"
      | .string => "STRING" | .array => "ARRAY" | .hash => "HASH"
      | .function => "FUNCTION" | .builtin => "BUILTIN"
      | .returnValue => "RETURN_VALUE" | .error => "ERROR" | .async => "ASYNC"
    errors := []
    hash_append := fun ret key val => ret ++ [(key, val)]
    hash_get := fun _ _ _ => some .null }

/-! ## Notions used to state the properties -/

/-- The state in which the statement after `stats` is reached: every statement of
`stats` is evaluated in turn and yields a null pointer or an object that is neither a
`ReturnValue` nor an `Error`.  No state when a statement faults or yields one of the two. -/
def passes (ev : Evaluation) (env : Nat) : List Node → State → Option State
  | [], st => some st
  | stat :: rest, st =>
    match ev stat env st with
    | .error _ => none
    | .ok (none, st1) => passes ev env rest st1
    | .ok (some obj, st1) =>
      if obj.kind = .returnValue ∨ obj.kind = .error then none else passes ev env rest st1

/-- The pointer an evaluation returned, when it returned. -/
def returned (r : Result) : Option Ptr :=
  match r with
  | .ok (val, _) => some val
  | .error _ => none

/-- The bindings `extend_function_env` leaves in a store: `bind_parameters` on the store
alone. -/
def bind_store : List String → List Ptr → List (String × Ptr) → List (String × Ptr)
  | param :: params, arg :: args, store => bind_store params args (store_set store param arg)
  | _, _, store => store

/-- The values of the expressions `exps`, evaluated in turn from left to right, and the
state reached after the last one, when every expression yields an object that is no
`Error`.  Nothing when an expression faults, yields a null pointer or yields an `Error`. -/
def evaluates_all (ev : Evaluation) (env : Nat) : List Node → State → Option (List Ptr × State)
  | [], st => some ([], st)
  | exp :: exps, st =>
    match ev exp env st with
    | .ok (some val, st1) =>
      if val.kind = .error then none
      else
        match evaluates_all ev env exps st1 with
        | some (vals, st2) => some (some val :: vals, st2)
        | none => none
    | _ => none

/-- The evaluation `ev2` returns whatever the evaluation `ev1` returns: the relation of an
evaluator to the evaluator with more fuel. -/
def below (ev1 ev2 : Evaluation) : Prop :=
  ∀ (node : Node) (env : Nat) (st : State) (r : Ptr × State),
    ev1 node env st = .ok r → ev2 node env st = .ok r

/-- What a Program makes of the result of its last statement: a Pending is replaced by the
result of its task, a `ReturnValue` by its value. -/
def finish_program : Result → Result
  | .error f => .error f
  | .ok (none, st) => .ok (none, st)
  | .ok (some obj, st) =>
    let forced : Ptr :=
      match obj with
      | .async _ cell => cell
      | _ => some obj
    match forced with
    | none => .error .null_deref
    | some (.returnValue _ value) => .ok (some value, st)
    | some result => .ok (some result, st)

/-! ## Programs used as examples -/

/-- The block `{ 1; return 2; 3 }` and the program `1; return 2; 3`. -/
def return_in_the_middle : List Node :=
  [.expressionStatment (.integerLiteral 1), .returnStatment (.integerLiteral 2),
   .expressionStatment (.integerLiteral 3)]

/-- The call `fn() { 1 + true }()`, whose task ends in a "type mismatch" `Error`. -/
def failing_call_expression : Node :=
  .callExpression
    (.functionLiteral [] (.blockStatment [.expressionStatment
      (.infixExpression "+" (.integerLiteral 1) (.booleanLiteral true))])) []

/-- The expression `fn() { false }()`: a call whose task returns the False constant. -/
def call_false : Node :=
  .callExpression
    (.functionLiteral [] (.blockStatment [.expressionStatment (.booleanLiteral false)])) []

/-- The program `if (fn() { false }()) { 1 } else { 2 }`. -/
def if_pending_false : Node :=
  .program [.expressionStatment (.ifExpression call_false
    (.blockStatment [.expressionStatment (.integerLiteral 1)])
    (.blockStatment [.expressionStatment (.integerLiteral 2)]))]

/-- The program `return fn() { 1 }();`. -/
def return_pending : Node :=
  .program [.returnStatment (.callExpression
    (.functionLiteral [] (.blockStatment [.expressionStatment (.integerLiteral 1)])) [])]

/-- The program `fn() { fn() { 1 }() }();`. -/
def nested_pending : Node :=
  .program [.expressionStatment (.callExpression
    (.functionLiteral [] (.blockStatment [.expressionStatment (.callExpression
      (.functionLiteral [] (.blockStatment [.expressionStatment (.integerLiteral 1)])) [])])) [])]

/-- The program `push([], fn() { 1 + true }())[0]`. -/
def index_of_pushed_error : Node :=
  .program [.expressionStatment (.indexExpression
    (.callExpression (.identifier "push") [.arrayLiteral [], failing_call_expression])
    (.integerLiteral 0))]

/-- The body `{ return if (true) { return 1 } }`. -/
def return_of_return : Node :=
  .blockStatment [.returnStatment (.ifExpression (.booleanLiteral true)
    (.blockStatment [.returnStatment (.integerLiteral 1)]) .nil)]

/-- The body `{ return 5; 6 }`. -/
def return_five : Node :=
  .blockStatment [.returnStatment (.integerLiteral 5), .expressionStatment (.integerLiteral 6)]

/-- The program `let len = 5; len`. -/
def shadowing_program : Node :=
  .program [.letStatment "len" (.integerLiteral 5), .expressionStatment (.identifier "len")]

/-- The array literal `[1, 1 + true, 3]` as a list of elements. -/
def elements_with_error : List Node :=
  [.integerLiteral 1, .infixExpression "+" (.integerLiteral 1) (.booleanLiteral true),
   .integerLiteral 3]

/-- The program `{1: 1 + true}`. -/
def hash_with_error : Node :=
  .program [.expressionStatment (.hashLiteral
    [(.integerLiteral 1, .infixExpression "+" (.integerLiteral 1) (.booleanLiteral true))])]

/-- The program `!fn() { 1 + true }()`. -/
def bang_of_failing_call : Node :=
  .program [.expressionStatment (.prefixExpression "!" failing_call_expression)]

/-- The program `fn() { 1 + true }() + 1`. -/
def sum_with_failing_call : Node :=
  .program [.expressionStatment
    (.infixExpression "+" failing_call_expression (.integerLiteral 1))]

/-- The program `fn() { 1 + true }()[0]`. -/
def index_of_failing_call : Node :=
  .program [.expressionStatment (.indexExpression failing_call_expression (.integerLiteral 0))]

/-- The program `let a = [1]; push(a, 2);`. -/
def push_program : Node :=
  .program [.letStatment "a" (.arrayLiteral [.integerLiteral 1]),
    .expressionStatment (.callExpression (.identifier "push")
      [.identifier "a", .integerLiteral 2])]

/-- The program `let a = [1]; push(a, 2); a`. -/
def push_then_read_program : Node :=
  .program [.letStatment "a" (.arrayLiteral [.integerLiteral 1]),
    .expressionStatment (.callExpression (.identifier "push")
      [.identifier "a", .integerLiteral 2]),
    .expressionStatment (.identifier "a")]

/-- The program `range(4294967296, 4294967298)`. -/
def range_beyond_int : Node :=
  .program [.expressionStatment (.callExpression (.identifier "range")
    [.integerLiteral 4294967296, .integerLiteral 4294967298])]

/-- The program `call + 0`, which forces the Pending of the call at once. -/
def forced_at_once (call : Node) : Node :=
  .program [.expressionStatment (.infixExpression "+" call (.integerLiteral 0))]

/-- The program `let r = call; r + 0`, which forces the Pending of the call when it is
used. -/
def forced_on_use (call : Node) : Node :=
  .program [.letStatment "r" call,
    .expressionStatment (.infixExpression "+" (.identifier "r") (.integerLiteral 0))]

/-- The call `fn(x) { x * 2 }(21)`. -/
def doubling_call : Node :=
  .callExpression (.functionLiteral ["x"] (.blockStatment [.expressionStatment
    (.infixExpression "*" (.identifier "x") (.integerLiteral 2))])) [.integerLiteral 21]

/-- The program `5(1, 2)`. -/
def call_of_integer : Node :=
  .program [.expressionStatment (.callExpression (.integerLiteral 5)
    [.integerLiteral 1, .integerLiteral 2])]

/-- The programs `first([1, 2, 3])` and `last([1, 2, 3])`, by the name of the builtin. -/
def builtin_on_array (name : String) : Node :=
  .program [.expressionStatment (.callExpression (.identifier name)
    [.arrayLiteral [.integerLiteral 1, .integerLiteral 2, .integerLiteral 3]])]

/-- The programs `[1, 2, 3][0]` and `[1, 2, 3][-1]`, by the index expression. -/
def index_on_array (index : Node) : Node :=
  .program [.expressionStatment (.indexExpression
    (.arrayLiteral [.integerLiteral 1, .integerLiteral 2, .integerLiteral 3]) index)]

/-- The program `fn() {}()`, a call of a function with an empty body. -/
def call_of_empty_function : Node :=
  .program [.expressionStatment (.callExpression (.functionLiteral [] (.blockStatment [])) [])]

/-! ## Theorems -/

section Arithmetic

/-- A value reduced to 64 bits is a 64-bit integer. -/
theorem wrap64_in_int64 (x : Int) : in_int64 (wrap64 x) := by
  unfold in_int64 wrap64; omega

/-- Reducing to 64 bits changes a value by a multiple of `2^64`. -/
theorem wrap64_congruent (x : Int) : (18446744073709551616 : Int) ∣ wrap64 x - x := by
  unfold wrap64; omega

/-- Reducing a 64-bit integer to 64 bits leaves it as it is. -/
theorem wrap64_of_in_int64 (x : Int) (h : in_int64 x) : wrap64 x = x := by
  unfold in_int64 at h; unfold wrap64; omega

/-- The truncated quotient of two 64-bit integers is one, but for `-2^63 / -1`. -/
theorem tdiv_in_int64 (a b : Int) (ha : in_int64 a) (hb : in_int64 b) (h0 : b ≠ 0)
    (hov : ¬ (a = int64_min ∧ b = -1)) : in_int64 (Int.tdiv a b) := by
  unfold in_int64 int64_min at *
  have habs : (Int.tdiv a b).natAbs ≤ a.natAbs := by
    rw [Int.natAbs_tdiv]; exact Nat.div_le_self _ _
  by_cases h1 : b = -1
  · subst h1
    have : Int.tdiv a (-1) = -a := by simp [Int.tdiv_neg]
    rw [this]; omega
  · by_cases h2 : 0 ≤ a
    · omega
    · by_cases h3 : 0 < b
      · have : Int.tdiv a b ≤ 0 := by
          have := Int.tdiv_nonneg (a := -a) (b := b) (by omega) (by omega)
          rw [Int.neg_tdiv] at this; omega
        omega
      · -- here `b ≤ -2` and `a < 0`
        have hq : (Int.tdiv a b).natAbs ≤ a.natAbs / 2 := by
          rw [Int.natAbs_tdiv]
          calc a.natAbs / b.natAbs ≤ a.natAbs / 2 := Nat.div_le_div_left (by omega) (by omega)
            _ ≤ a.natAbs / 2 := le_refl _
        omega

end Arithmetic

section Operators

/-- The Boolean constant chosen for a native `bool`. -/
theorem native_bool_to_boolean_object_eq (input : Bool) :
    native_bool_to_boolean_object input = .boolean input := by
  cases input <;> rfl

/-- C1 (counterexample): the operands `-2^63` and `-1` are 64-bit integers and the divisor
is not zero, yet `/` does not yield the Integer of the quotient truncated toward zero
(`2^63`, no 64-bit integer): the native division has no result there. -/
theorem integer_division_overflow_counterexample :
    in_int64 int64_min ∧ in_int64 (-1) ∧ (-1 : Int) ≠ 0 ∧
    eval_infix_expression Config.plain 0 "/" (.integer int64_min) (.integer (-1))
      ≠ .ok (.integer (Int.tdiv int64_min (-1))) ∧
    eval_infix_expression Config.plain 0 "/" (.integer int64_min) (.integer (-1))
      = .error .undefined_division := by
  refine ⟨by decide, by decide, by decide, ?_, ?_⟩ <;>
    simp [eval_infix_expression, unwrap_async, Object.kind, eval_integer_infix_expression,
      int64_min]

/-- C1 (amended): on two Integer operands holding 64-bit integers `a` and `b`, the infix
expression yields for `+`, `-`, `*` the Integer of the 64-bit integer congruent to
`a + b`, `a - b`, `a * b` modulo `2^64`; for `/`, when `b ≠ 0` and not both `a = -2^63`
and `b = -1`, the Integer of the quotient truncated toward zero, itself a 64-bit integer;
and for `<`, `<=`, `>`, `>=`, `==`, `!=` the Boolean constant of the comparison. -/
theorem integer_infix_matches_native (cfg : Config) (adr : Nat) (a b : Int)
    (ha : in_int64 a) (hb : in_int64 b) :
    (∃ r, eval_infix_expression cfg adr "+" (.integer a) (.integer b) = .ok (.integer r) ∧
      in_int64 r ∧ (18446744073709551616 : Int) ∣ r - (a + b)) ∧
    (∃ r, eval_infix_expression cfg adr "-" (.integer a) (.integer b) = .ok (.integer r) ∧
      in_int64 r ∧ (18446744073709551616 : Int) ∣ r - (a - b)) ∧
    (∃ r, eval_infix_expression cfg adr "*" (.integer a) (.integer b) = .ok (.integer r) ∧
      in_int64 r ∧ (18446744073709551616 : Int) ∣ r - (a * b)) ∧
    (b ≠ 0 → ¬ (a = int64_min ∧ b = -1) →
      eval_infix_expression cfg adr "/" (.integer a) (.integer b)
        = .ok (.integer (Int.tdiv a b)) ∧ in_int64 (Int.tdiv a b)) ∧
    eval_infix_expression cfg adr "<" (.integer a) (.integer b)
      = .ok (.boolean (decide (a < b))) ∧
    eval_infix_expression cfg adr "<=" (.integer a) (.integer b)
      = .ok (.boolean (decide (a ≤ b))) ∧
    eval_infix_expression cfg adr ">" (.integer a) (.integer b)
      = .ok (.boolean (decide (a > b))) ∧
    eval_infix_expression cfg adr ">=" (.integer a) (.integer b)
      = .ok (.boolean (decide (a ≥ b))) ∧
    eval_infix_expression cfg adr "==" (.integer a) (.integer b)
      = .ok (.boolean (decide (a = b))) ∧
    eval_infix_expression cfg adr "!=" (.integer a) (.integer b)
      = .ok (.boolean (decide (a ≠ b))) := by
  refine ⟨⟨wrap64 (a + b), ?_, wrap64_in_int64 _, wrap64_congruent _⟩,
    ⟨wrap64 (a - b), ?_, wrap64_in_int64 _, wrap64_congruent _⟩,
    ⟨wrap64 (a * b), ?_, wrap64_in_int64 _, wrap64_congruent _⟩,
    fun h0 hov => ⟨?_, tdiv_in_int64 a b ha hb h0 hov⟩, ?_, ?_, ?_, ?_, ?_, ?_⟩
  all_goals
    simp [eval_infix_expression, unwrap_async, Object.kind, eval_integer_infix_expression,
      native_bool_to_boolean_object_eq]
  exact ⟨h0, fun h1 h2 => hov ⟨h1, h2⟩⟩

/-- C1 (witness): `7 / -2` is the Integer -3 and `7 < -2` is False. -/
theorem integer_infix_matches_native_witness :
    in_int64 7 ∧ in_int64 (-2) ∧
    eval_infix_expression Config.plain 0 "/" (.integer 7) (.integer (-2))
      = .ok (.integer (-3)) ∧
    eval_infix_expression Config.plain 0 "<" (.integer 7) (.integer (-2))
      = .ok (.boolean false) :=
  have h := integer_infix_matches_native Config.plain 0 7 (-2) (by decide) (by decide)
  ⟨by decide, by decide, (h.2.2.2.1 (by decide) (by decide)).1, h.2.2.2.2.1⟩

/-- C2 (the code at the failing input): for every dividend the division by the Integer 0
has no result, and so has the program `1 / 0`; no `Error` object is returned. -/
theorem division_by_zero_has_no_result (cfg : Config) (adr : Nat) (a : Int) :
    eval_infix_expression cfg adr "/" (.integer a) (.integer 0)
      = .error .undefined_division ∧
    eval_input Config.plain 4
      (.program [.expressionStatment
        (.infixExpression "/" (.integerLiteral 1) (.integerLiteral 0))]) State.initial
      = .error .undefined_division := by
  refine ⟨?_, rfl⟩
  simp [eval_infix_expression, unwrap_async, Object.kind, eval_integer_infix_expression]

/-- The expression `a op b` on two integer literals evaluates to what
`eval_infix_expression` yields on the Integers `a` and `b`. -/
theorem eval_infix_of_integer_literals (cfg : Config) (fuel env : Nat) (op : String)
    (a b : Int) (st : State) :
    eval cfg (fuel + 2) (.infixExpression op (.integerLiteral a) (.integerLiteral b)) env st
      = (eval_infix_expression cfg st.next op (.integer a) (.integer b)).map
          (fun val => (some val, st.bump)) := by
  simp only [eval, Object.kind]
  cases eval_infix_expression cfg st.next op (.integer a) (.integer b) <;> simp [Except.map]

end Operators

section Index

/-- The index expression on an Array and an Integer, with the tests on the classes done. -/
theorem eval_index_expression_array (cfg : Config) (adr : Nat) (elems : List Ptr) (i : Int) :
    eval_index_expression cfg adr (.array elems) (.integer i) =
      if (if i < 0 then wrap64 (i + elems.length) else i) < 0 ∨
          (if i < 0 then wrap64 (i + elems.length) else i) ≥ elems.length
      then .ok (some .null)
      else .ok (elems.getD (if i < 0 then wrap64 (i + elems.length) else i).toNat none) := by
  simp [eval_index_expression, unwrap_async, Object.kind]

/-- An element is yielded as it is, also when it is an `Error` object: indexing an Array
whose element 0 is an `Error` at 0 yields that element.  Such an Array arises only where a
forced `Error` is passed on untested, as in the program `push([], fn() { 1 + true }())[0]`,
whose index expression yields the "type mismatch" `Error` of the task. -/
theorem array_index_yields_error_element :
    eval_index_expression Config.plain 0 (.array [some (.error 7 "boom")]) (.integer 0)
      = .ok (some (.error 7 "boom")) ∧
    returned (eval_input Config.plain 12 index_of_pushed_error State.initial)
      = some (some (.error 2 "type mismatch: `INTEGER + BOOLEAN`")) :=
  ⟨rfl, rfl⟩

/-- C3: for an Array with elements `e[0..n-1]` (`n < 2^63`) and an Integer index
`i` holding a 64-bit integer, the index expression yields `e[i]` when `0 ≤ i < n`,
`e[n+i]` when `-n ≤ i < 0`, and the Null constant otherwise; in every case it returns,
and the result is Null or one of the elements, so indexing raises no error. -/
theorem array_index_expression (cfg : Config) (adr : Nat) (elems : List Ptr) (i : Int)
    (hi : in_int64 i) (hn : (elems.length : Int) < 9223372036854775808) :
    (0 ≤ i → i < elems.length → ∃ h : i.toNat < elems.length,
      eval_index_expression cfg adr (.array elems) (.integer i)
        = .ok (elems.get ⟨i.toNat, h⟩)) ∧
    (-(elems.length : Int) ≤ i → i < 0 → ∃ h : (elems.length + i).toNat < elems.length,
      eval_index_expression cfg adr (.array elems) (.integer i)
        = .ok (elems.get ⟨(elems.length + i).toNat, h⟩)) ∧
    (i < -(elems.length : Int) ∨ (elems.length : Int) ≤ i →
      eval_index_expression cfg adr (.array elems) (.integer i) = .ok (some .null)) ∧
    (∃ p, eval_index_expression cfg adr (.array elems) (.integer i) = .ok p ∧
      (p = some .null ∨ p ∈ elems)) := by
  have hw : i < 0 → wrap64 (i + elems.length) = i + elems.length := fun h =>
    wrap64_of_in_int64 _ (by unfold in_int64 at *; omega)
  rw [eval_index_expression_array]
  refine ⟨?_, ?_, ?_, ?_⟩
  · intro h0 h1
    have h : i.toNat < elems.length := by omega
    refine ⟨h, ?_⟩
    rw [if_neg (by omega), if_neg (by omega), List.getD_eq_getElem _ _ h]
    rfl
  · intro h0 h1
    have h : (elems.length + i).toNat < elems.length := by omega
    refine ⟨h, ?_⟩
    rw [if_pos h1, hw h1, if_neg (by omega), Int.add_comm i, List.getD_eq_getElem _ _ h]
    rfl
  · intro h
    by_cases h1 : i < 0
    · rw [if_pos h1, hw h1, if_pos (by omega)]
    · rw [if_neg h1, if_pos (by omega)]
  · by_cases h1 : i < 0
    · rw [if_pos h1, hw h1]
      by_cases h2 : i + (elems.length : Int) < 0 ∨ i + (elems.length : Int) ≥ elems.length
      · rw [if_pos h2]; exact ⟨_, rfl, Or.inl rfl⟩
      · rw [if_neg h2]
        have h : (i + (elems.length : Int)).toNat < elems.length := by omega
        refine ⟨_, rfl, Or.inr ?_⟩
        rw [List.getD_eq_getElem _ _ h]
        exact List.getElem_mem _
    · rw [if_neg h1]
      by_cases h2 : i < 0 ∨ i ≥ (elems.length : Int)
      · rw [if_pos h2]; exact ⟨_, rfl, Or.inl rfl⟩
      · rw [if_neg h2]
        have h : i.toNat < elems.length := by omega
        refine ⟨_, rfl, Or.inr ?_⟩
        rw [List.getD_eq_getElem _ _ h]
        exact List.getElem_mem _

/-- C3 (witness): `[1,2,3][-1]` and `[1,2,3][2]` both yield 3. -/
theorem array_index_expression_witness :
    eval_index_expression Config.plain 0
      (.array [some (.integer 1), some (.integer 2), some (.integer 3)]) (.integer (-1))
      = .ok (some (.integer 3)) ∧
    eval_index_expression Config.plain 0
      (.array [some (.integer 1), some (.integer 2), some (.integer 3)]) (.integer 2)
      = .ok (some (.integer 3)) :=
  ⟨((array_index_expression Config.plain 0
      [some (.integer 1), some (.integer 2), some (.integer 3)] (-1)
      (by decide) (by decide)).2.1 (by decide) (by decide)).elim (fun _ h => h),
   ((array_index_expression Config.plain 0
      [some (.integer 1), some (.integer 2), some (.integer 3)] 2
      (by decide) (by decide)).1 (by decide) (by decide)).elim (fun _ h => h)⟩

/-- The programs `[1,2,3][-1]` and `[1,2,3][2]`, run by the evaluator from its initial
state, both return the Integer 3. -/
theorem array_index_programs :
    returned (eval_input Config.plain 5
      (.program [.expressionStatment (.indexExpression
        (.arrayLiteral [.integerLiteral 1, .integerLiteral 2, .integerLiteral 3])
        (.prefixExpression "-" (.integerLiteral 1)))]) State.initial)
      = some (some (.integer 3)) ∧
    returned (eval_input Config.plain 5
      (.program [.expressionStatment (.indexExpression
        (.arrayLiteral [.integerLiteral 1, .integerLiteral 2, .integerLiteral 3])
        (.integerLiteral 2))]) State.initial)
      = some (some (.integer 3)) :=
  ⟨rfl, rfl⟩

end Index

section Truthiness

/-- The operator `!` on a value that is no Pending. -/
theorem eval_prefix_bang (cfg : Config) (adr : Nat) (x : Object) (hx : x.kind ≠ .async) :
    eval_prefix_expression cfg adr "!" x = .ok (.boolean (!is_truthy (some x))) := by
  cases x with
  | async a r => exact absurd rfl hx
  | boolean b =>
    cases b <;>
      simp [eval_prefix_expression, unwrap_async, Object.kind, eval_bang_operator_expression,
        is_truthy]
  | _ =>
    simp [eval_prefix_expression, unwrap_async, Object.kind, eval_bang_operator_expression,
      is_truthy]

/-- The truthy values are those that are neither Null nor False. -/
theorem is_truthy_iff (x : Object) :
    is_truthy (some x) = true ↔ x ≠ .null ∧ x ≠ .boolean false := by
  cases x with
  | boolean b => cases b <;> simp [is_truthy]
  | _ => simp [is_truthy]

/-- C4: for every value `x` that is no Pending, `!x` is the Boolean constant of the
negated truthiness of `x`, so `!x` is True exactly when `is_truthy(x)` is false; `!!x`
is the Boolean constant of the truthiness of `x`; and `x` is truthy exactly when it is
neither the Null constant nor the False constant. -/
theorem bang_twice_is_truthiness (cfg : Config) (adr adr2 : Nat) (x : Object)
    (hx : x.kind ≠ .async) :
    eval_prefix_expression cfg adr "!" x = .ok (.boolean (!is_truthy (some x))) ∧
    (eval_prefix_expression cfg adr "!" x = .ok (.boolean true) ↔ is_truthy (some x) = false) ∧
    ((eval_prefix_expression cfg adr "!" x).bind (eval_prefix_expression cfg adr2 "!")
      = .ok (.boolean (is_truthy (some x)))) ∧
    (is_truthy (some x) = true ↔ x ≠ .null ∧ x ≠ .boolean false) := by
  have h1 := eval_prefix_bang cfg adr x hx
  refine ⟨h1, ?_, ?_, is_truthy_iff x⟩
  · rw [h1]
    cases is_truthy (some x) <;> simp
  · rw [h1]
    simp only [Except.bind]
    rw [eval_prefix_bang cfg adr2 _ (by simp [Object.kind])]
    cases is_truthy (some x) <;> rfl

/-- The expression `!e`, for an operand `e` that yields neither a Pending nor an `Error`,
evaluates to the Boolean constant of the negated truthiness of the value of `e`. -/
theorem eval_bang (cfg : Config) (fuel env : Nat) (e : Node) (st st1 : State)
    (x : Object) (h : eval cfg fuel e env st = .ok (some x, st1))
    (hx : x.kind ≠ .async) (he : x.kind ≠ .error) :
    eval cfg (fuel + 1) (.prefixExpression "!" e) env st
      = .ok (some (.boolean (!is_truthy (some x))), st1.bump) := by
  have h1 := eval_prefix_bang cfg st1.next x hx
  simp only [eval, h, he, if_false, h1]

/-- The expression `!!e`, for an operand `e` that yields neither a Pending nor an `Error`,
evaluates to the Boolean constant of the truthiness of the value of `e`. -/
theorem eval_bang_bang (cfg : Config) (fuel env : Nat) (e : Node) (st st1 : State)
    (x : Object) (h : eval cfg fuel e env st = .ok (some x, st1))
    (hx : x.kind ≠ .async) (he : x.kind ≠ .error) :
    eval cfg (fuel + 2) (.prefixExpression "!" (.prefixExpression "!" e)) env st
      = .ok (some (.boolean (is_truthy (some x))), st1.bump.bump) := by
  have h1 := eval_bang cfg fuel env e st st1 x h hx he
  have h2 := eval_bang cfg (fuel + 1) env _ st st1.bump _ h1 (by simp [Object.kind])
    (by simp [Object.kind])
  rw [h2]
  cases is_truthy (some x) <;> rfl

/-- C4 (witness): `!!5` is True and `!!null` is False. -/
theorem bang_twice_is_truthiness_witness :
    (eval_prefix_expression Config.plain 0 "!" (.integer 5)).bind
      (eval_prefix_expression Config.plain 1 "!") = .ok (.boolean true) ∧
    (eval_prefix_expression Config.plain 0 "!" .null).bind
      (eval_prefix_expression Config.plain 1 "!") = .ok (.boolean false) :=
  ⟨(bang_twice_is_truthiness Config.plain 0 1 (.integer 5) (by decide)).2.2.1,
   (bang_twice_is_truthiness Config.plain 0 1 .null (by decide)).2.2.1⟩

end Truthiness

section Statements

/-- The loop of a Block reaches the statement after a prefix that passes, in the state `passes`
gives, whatever result it held before. -/
theorem eval_statments_loop_passes (ev : Evaluation) (env : Nat) (s : Node) (post : List Node) :
    ∀ (pre : List Node) (st st1 : State) (r r1 : Ptr), passes ev env pre st = some st1 →
      eval_statments_loop ev env (pre ++ s :: post) r st
        = eval_statments_loop ev env (s :: post) r1 st1 := by
  intro pre
  induction pre with
  | nil =>
    intro st st1 r r1 h
    simp only [passes, Option.some.injEq] at h
    subst h
    simp [eval_statments_loop]
  | cons p pre ih =>
    intro st st1 r r1 h
    simp only [passes] at h
    conv_lhs => simp only [List.cons_append, eval_statments_loop]
    cases hev : ev p env st with
    | error f => simp [hev] at h
    | ok pr =>
      obtain ⟨v, st'⟩ := pr
      cases v with
      | none =>
        simp only [hev] at h ⊢
        exact ih _ _ _ _ h
      | some obj =>
        simp only [hev] at h ⊢
        by_cases hk : obj.kind = .returnValue ∨ obj.kind = .error
        · simp [hk] at h
        · simp only [hk, if_false] at h ⊢
          exact ih _ _ _ _ h

/-- The loop of a Program reaches the statement after a prefix that passes, in the state
`passes` gives: no statement of the prefix is the last one, so none is forced. -/
theorem eval_program_loop_passes (ev : Evaluation) (env : Nat) (s : Node) (post : List Node) :
    ∀ (pre : List Node) (st st1 : State) (r r1 : Ptr), passes ev env pre st = some st1 →
      eval_program_loop ev env (pre ++ s :: post) r st
        = eval_program_loop ev env (s :: post) r1 st1 := by
  intro pre
  induction pre with
  | nil =>
    intro st st1 r r1 h
    simp only [passes, Option.some.injEq] at h
    subst h
    simp [eval_program_loop]
  | cons p pre ih =>
    intro st st1 r r1 h
    simp only [passes] at h
    conv_lhs => simp only [List.cons_append, eval_program_loop]
    cases hev : ev p env st with
    | error f => simp [hev] at h
    | ok pr =>
      obtain ⟨v, st'⟩ := pr
      cases v with
      | none =>
        simp only [hev] at h ⊢
        exact ih _ _ _ _ h
      | some obj =>
        simp only [hev] at h ⊢
        have hne : (pre ++ s :: post).isEmpty = false := by cases pre <;> rfl
        by_cases hk : obj.kind = .returnValue ∨ obj.kind = .error
        · simp [hk] at h
        · simp only [hk, if_false] at h
          cases obj <;> simp_all [Object.kind] <;> exact ih _ _ _ _ h

end Statements

section Programs

/-- C8: when the statements before statement `s` of a list pass (none yields a
`ReturnValue` or an `Error`) and `s` yields the `ReturnValue` or `Error` `r`, then whatever
statements `post` follow, none of them is evaluated: a Block returns `r` itself, a Program
returns `r` when it is an `Error` and the inner value of `r` when it is a `ReturnValue`,
both in the state that `s` left. -/
theorem early_exit_on_return_or_error (cfg : Config) (fuel env : Nat) (pre post : List Node)
    (s : Node) (st st1 st2 : State) (r : Object)
    (hpre : passes (eval cfg fuel) env pre st = some st1)
    (hs : eval cfg fuel s env st1 = .ok (some r, st2))
    (hr : r.kind = .returnValue ∨ r.kind = .error) :
    eval cfg (fuel + 1) (.blockStatment (pre ++ s :: post)) env st = .ok (some r, st2) ∧
    (r.kind = .error →
      eval cfg (fuel + 1) (.program (pre ++ s :: post)) env st = .ok (some r, st2)) ∧
    (∀ adr value, r = .returnValue adr value →
      eval cfg (fuel + 1) (.program (pre ++ s :: post)) env st = .ok (some value, st2)) := by
  refine ⟨?_, ?_, ?_⟩
  · simp only [eval, eval_statments]
    rw [eval_statments_loop_passes _ _ _ _ _ _ _ _ none hpre]
    simp [eval_statments_loop, hs, hr]
  · intro he
    simp only [eval, eval_program]
    rw [eval_program_loop_passes _ _ _ _ _ _ _ _ none hpre]
    cases r <;> simp_all [eval_program_loop, Object.kind]
  · intro adr value hv
    subst hv
    simp only [eval, eval_program]
    rw [eval_program_loop_passes _ _ _ _ _ _ _ _ none hpre]
    simp [eval_program_loop, hs]

/-- C8 (witness): in `1; return 2; 3` the statement `3` is not evaluated; the Block
yields the `ReturnValue` of 2 and the Program the Integer 2. -/
theorem early_exit_on_return_or_error_witness :
    eval Config.plain 4 (.blockStatment return_in_the_middle) 0 State.initial
      = .ok (some (.returnValue 0 (.integer 2)), State.initial.bump) ∧
    eval Config.plain 4 (.program return_in_the_middle) 0 State.initial
      = .ok (some (.integer 2), State.initial.bump) :=
  have h := early_exit_on_return_or_error Config.plain 3 0
    [.expressionStatment (.integerLiteral 1)] [.expressionStatment (.integerLiteral 3)]
    (.returnStatment (.integerLiteral 2)) State.initial State.initial State.initial.bump
    (.returnValue 0 (.integer 2)) rfl rfl (Or.inl rfl)
  ⟨h.1, h.2.2 0 (.integer 2) rfl⟩

end Programs

section Pending

/-- An if-expression whose condition yields a Pending takes the consequence, when there is
one, whatever the result of the task: the condition is tested unforced. -/
theorem if_pending_condition_takes_consequence (cfg : Config) (fuel env : Nat)
    (condition consequence alternative : Node) (st st1 : State) (adr : Nat) (cell : Ptr)
    (hc : condition.is_null = false) (hq : consequence.is_null = false)
    (h : eval cfg fuel condition env st = .ok (some (.async adr cell), st1)) :
    eval cfg (fuel + 1) (.ifExpression condition consequence alternative) env st
      = eval cfg fuel consequence env st1 := by
  simp [eval, eval_if_expression, hc, hq, h, is_error, is_truthy, Object.kind]

/-- C5 (the code at the failing input): the condition of
`if (fn() { false }()) { 1 } else { 2 }` is a Pending whose task result is False, and the
program returns the Integer 1, the value of the consequence. -/
theorem if_pending_false_takes_consequence :
    returned (eval Config.plain 6 call_false 0 State.initial)
      = some (some (.async 1 (some (.boolean false)))) ∧
    returned (eval_input Config.plain 8 if_pending_false State.initial)
      = some (some (.integer 1)) :=
  ⟨rfl, rfl⟩

/-- C6 (the code at the failing inputs): the program `return fn() { 1 }();` returns the
Pending of the call unforced, and the program `fn() { fn() { 1 }() }();` returns the
Pending of the inner call, the result of the task of the outer one. -/
theorem program_returns_raw_pending :
    returned (eval_input Config.plain 8 return_pending State.initial)
      = some (some (.async 1 (some (.integer 1)))) ∧
    returned (eval_input Config.plain 10 nested_pending State.initial)
      = some (some (.async 2 (some (.integer 1)))) :=
  ⟨rfl, rfl⟩

end Pending

section Binding

/-- Removing the bindings of another name leaves the lookup of a name as it is. -/
theorem lookup_filter_ne (name other : String) (h : name ≠ other) :
    ∀ store : List (String × Ptr),
      (store.filter (fun p => p.1 != other)).lookup name = store.lookup name := by
  intro store
  induction store with
  | nil => rfl
  | cons p store ih =>
    obtain ⟨k, v⟩ := p
    by_cases hk : k = other
    · subst hk
      have : (name == k) = false := by simpa using h
      simp [List.filter, List.lookup, this, ih]
    · have hk2 : (k != other) = true := by simpa using hk
      simp only [List.filter, hk2, List.lookup, ih]

/-- The lookup in a store after one `set`. -/
theorem lookup_store_set (store : List (String × Ptr)) (param name : String) (val : Ptr) :
    (store_set store param val).lookup name
      = if name = param then some val else store.lookup name := by
  unfold store_set
  by_cases h : name = param
  · subst h; simp [List.lookup]
  · have : (name == param) = false := by simpa using h
    simp [List.lookup, this, h, lookup_filter_ne name param h]

/-- A name that is none of the bound parameters is looked up as before the binding. -/
theorem lookup_bind_store_unbound (name : String) :
    ∀ (params : List String) (args : List Ptr) (store : List (String × Ptr)),
      (∀ i (hp : i < params.length), i < args.length → params.get ⟨i, hp⟩ ≠ name) →
      (bind_store params args store).lookup name = store.lookup name := by
  intro params
  induction params with
  | nil => intro args store _; cases args <;> rfl
  | cons p params ih =>
    intro args store h
    cases args with
    | nil => rfl
    | cons a args =>
      simp only [bind_store]
      rw [ih args _ (fun i hp ha => h (i + 1) (by simpa using hp) (by simpa using ha))]
      rw [lookup_store_set]
      have h0 := h 0 (by simp) (by simp)
      simp only [List.get_eq_getElem, List.getElem_cons_zero] at h0
      rw [if_neg (fun e => h0 e.symm)]

/-- A bound parameter whose name no later bound parameter repeats holds its argument. -/
theorem lookup_bind_store_bound :
    ∀ (params : List String) (args : List Ptr) (store : List (String × Ptr))
      (i : Nat) (hp : i < params.length) (ha : i < args.length),
      (∀ j (hj : j < params.length), i < j → j < args.length →
        params.get ⟨j, hj⟩ ≠ params.get ⟨i, hp⟩) →
      (bind_store params args store).lookup (params.get ⟨i, hp⟩) = some (args.get ⟨i, ha⟩) := by
  intro params
  induction params with
  | nil => intro args store i hp; exact absurd hp (by simp)
  | cons p params ih =>
    intro args store i hp ha h
    cases args with
    | nil => exact absurd ha (by simp)
    | cons a args =>
      simp only [bind_store]
      cases i with
      | zero =>
        simp only [List.get_eq_getElem, List.getElem_cons_zero]
        rw [lookup_bind_store_unbound p params args _ (fun j hj hja => by
          have := h (j + 1) (by simpa using hj) (by omega) (by simpa using hja)
          simpa using this)]
        rw [lookup_store_set, if_pos rfl]
      | succ i =>
        have hp2 : i < params.length := by simpa using hp
        have ha2 : i < args.length := by simpa using ha
        have := ih args (store_set store p a) i hp2 ha2 (fun j hj hij hja => by
          have := h (j + 1) (by simpa using hj) (by omega) (by simpa using hja)
          simpa using this)
        simpa using this

/-- Writing back the element a list holds at an index leaves the list as it is. -/
theorem set_same {α : Type} : ∀ (l : List α) (i : Nat) (e : α), l[i]? = some e → l.set i e = l := by
  intro l
  induction l with
  | nil => intro i e _; rfl
  | cons x l ih =>
    intro i e h
    cases i with
    | zero => simp at h; simp [h]
    | succ i => simp at h; simp [ih i e h]

/-- The binding loop changes the store of the environment it binds in, and nothing else. -/
theorem bind_parameters_envs (env : Nat) :
    ∀ (params : List String) (args : List Ptr) (st : State) (e : Environment),
      st.envs[env]? = some e →
      bind_parameters env params args st
        = { st with
            envs := (st.envs.set env (Environment.mk (bind_store params args e.store) e.outer)) } := by
  intro params
  induction params with
  | nil =>
    intro args st e he
    have : st.envs.set env { store := e.store, outer := e.outer } = st.envs :=
      set_same _ _ _ he
    cases args <;> simp [bind_parameters, bind_store, this]
  | cons p params ih =>
    intro args st e he
    cases args with
    | nil =>
      have : st.envs.set env { store := e.store, outer := e.outer } = st.envs :=
        set_same _ _ _ he
      simp [bind_parameters, bind_store, this]
    | cons a args =>
      have hlt : env < st.envs.length := (List.getElem?_eq_some.mp he).1
      simp only [bind_parameters, bind_store]
      have hset : (st.set env p a).envs[env]?
          = some { store := store_set e.store p a, outer := e.outer } := by
        simp [State.set, he, hlt]
      rw [ih args _ _ hset]
      simp [State.set, he]

end Binding

section Calls

/-- C10 (counterexample): for the parameters `x, x` and the arguments 1, 2 the name
`p[0] = x` is bound to `a[1] = 2` in the environment of the call, not to `a[0] = 1`. -/
theorem duplicate_parameter_counterexample :
    (extend_function_env ["x", "x"] 0 [some (.integer 1), some (.integer 2)] State.initial).2.get
      (extend_function_env ["x", "x"] 0 [some (.integer 1), some (.integer 2)] State.initial).1
      "x" = some (.integer 2) ∧
    (extend_function_env ["x", "x"] 0 [some (.integer 1), some (.integer 2)] State.initial).2.get
      (extend_function_env ["x", "x"] 0 [some (.integer 1), some (.integer 2)] State.initial).1
      "x" ≠ some (.integer 1) := by
  have h : (extend_function_env ["x", "x"] 0 [some (.integer 1), some (.integer 2)]
      State.initial).2.get
      (extend_function_env ["x", "x"] 0 [some (.integer 1), some (.integer 2)] State.initial).1
      "x" = some (.integer 2) := rfl
  refine ⟨h, ?_⟩
  rw [h]
  intro e
  injection e with e
  injection e with e
  exact absurd e (by decide)

/-- C10 (amended): the environment of a call is a new environment, appended to the heap
with the captured environment of the function as its parent; no other environment
changes; in the new scope every `p[i]` with `i < min(m, n)` whose name no later bound
parameter repeats is bound to `a[i]` (of parameters with one name the last bound one
wins), and a name that is no `p[i]` with `i < min(m, n)` is unbound, so extra arguments
are ignored and parameters without an argument stay unbound. -/
theorem extend_function_env_binds (parameters : List String) (fn_env : Nat)
    (args : List Ptr) (st : State) :
    (extend_function_env parameters fn_env args st).1 = st.envs.length ∧
    (extend_function_env parameters fn_env args st).2.next = st.next ∧
    (extend_function_env parameters fn_env args st).2.output = st.output ∧
    ∃ child : Environment,
      (extend_function_env parameters fn_env args st).2.envs = st.envs ++ [child] ∧
      child.outer = some fn_env ∧
      (∀ i (hp : i < parameters.length) (ha : i < args.length),
        (∀ j (hj : j < parameters.length), i < j → j < args.length →
          parameters.get ⟨j, hj⟩ ≠ parameters.get ⟨i, hp⟩) →
        child.store.lookup (parameters.get ⟨i, hp⟩) = some (args.get ⟨i, ha⟩)) ∧
      (∀ name, (∀ i (hp : i < parameters.length), i < args.length →
          parameters.get ⟨i, hp⟩ ≠ name) →
        child.store.lookup name = none) := by
  have hget : (st.new_env fn_env).2.envs[(st.new_env fn_env).1]?
      = some { store := [], outer := some fn_env } := by
    simp [State.new_env]
  have hb := bind_parameters_envs (st.new_env fn_env).1 parameters args (st.new_env fn_env).2
    _ hget
  simp only [extend_function_env]
  rw [hb]
  refine ⟨rfl, rfl, rfl, ⟨bind_store parameters args [], some fn_env⟩, ?_, rfl, ?_, ?_⟩
  · simp [State.new_env]
  · intro i hp ha h
    exact lookup_bind_store_bound parameters args [] i hp ha h
  · intro name h
    rw [lookup_bind_store_unbound name parameters args [] h]
    rfl

end Calls

section Application

/-- C9 (counterexample): applying the function `fn() { return if (true) { return 1 } }`
to no argument yields a `ReturnValue` (wrapping the Integer 1), and the program
`fn() { return if (true) { return 1 } }() + 1` ends in an `Error`, not in the Integer 2. -/
theorem apply_function_returns_return_value :
    returned (apply_function Config.plain (eval Config.plain 6)
      (.function 0 [] return_of_return 0) [] State.initial)
      = some (some (.returnValue 0 (.integer 1))) ∧
    returned (eval_input Config.plain 12
      (.program [.expressionStatment (.infixExpression "+"
        (.callExpression (.functionLiteral [] return_of_return) []) (.integerLiteral 1))])
      State.initial) = some (some (.error 4 "type mismatch: `RETURN_VALUE + INTEGER`")) :=
  ⟨rfl, rfl⟩

/-- C9 (amended): applying a Function to arguments that can be forced removes one
`ReturnValue` layer from the value of the body: when the body yields `ReturnValue(v)` the
application yields `v`, otherwise it yields the value of the body unchanged; the result
is itself a `ReturnValue` only when the body yielded a `ReturnValue` of a `ReturnValue`. -/
theorem apply_function_unwraps_one_return (cfg : Config) (fuel adr : Nat)
    (parameters : List String) (body : Node) (fn_env : Nat) (args forced : List Ptr)
    (st st1 : State) (val : Ptr)
    (hargs : unwrap_arguments args = .ok forced)
    (hbody : eval cfg fuel body (extend_function_env parameters fn_env forced st).1
      (extend_function_env parameters fn_env forced st).2 = .ok (val, st1)) :
    (∀ a v, val = some (.returnValue a v) →
      apply_function cfg (eval cfg fuel) (.function adr parameters body fn_env) args st
        = .ok (some v, st1)) ∧
    ((∀ a v, val ≠ some (.returnValue a v)) →
      apply_function cfg (eval cfg fuel) (.function adr parameters body fn_env) args st
        = .ok (val, st1)) ∧
    (∀ res st2,
      apply_function cfg (eval cfg fuel) (.function adr parameters body fn_env) args st
        = .ok (some res, st2) →
      res.kind = .returnValue → ∃ a b v, val = some (.returnValue a (.returnValue b v))) := by
  have happ : apply_function cfg (eval cfg fuel) (.function adr parameters body fn_env) args st
      = .ok (unwrap_return_value val, st1) := by
    simp [apply_function, hargs, unwrap_async, Object.kind, hbody]
  rw [happ]
  refine ⟨?_, ?_, ?_⟩
  · intro a v hv; subst hv; rfl
  · intro h
    cases val with
    | none => rfl
    | some o => cases o <;> first | rfl | exact absurd rfl (h _ _)
  · intro res st2 heq hk
    cases val with
    | none => simp [unwrap_return_value] at heq
    | some o =>
      cases o with
      | returnValue a v =>
        simp only [unwrap_return_value, Except.ok.injEq, Prod.mk.injEq, Option.some.injEq] at heq
        obtain ⟨hv, _⟩ := heq
        subst hv
        cases v <;> simp [Object.kind] at hk
        exact ⟨a, _, _, rfl⟩
      | _ =>
        simp only [unwrap_return_value, Except.ok.injEq, Prod.mk.injEq, Option.some.injEq] at heq
        obtain ⟨hv, _⟩ := heq
        subst hv
        simp [Object.kind] at hk

/-- C9 (witness): applying `fn() { return 5; 6 }` yields the Integer 5. -/
theorem apply_function_unwraps_one_return_witness :
    returned (apply_function Config.plain (eval Config.plain 3)
      (.function 0 [] return_five 0) [] State.initial) = some (some (.integer 5)) :=
  congrArg returned
    ((apply_function_unwraps_one_return Config.plain 3 0 [] return_five 0 [] [] State.initial
      _ (some (.returnValue 0 (.integer 5))) rfl rfl).1 0 (.integer 5) rfl)

end Application

section Closures

/-- A name bound in an environment is found there. -/
theorem env_get_here (envs : List Environment) (steps env : Nat) (name : String)
    (e : Environment) (val : Ptr) (he : envs[env]? = some e)
    (hl : e.store.lookup name = some val) :
    env_get envs (steps + 1) env name = val := by
  simp [env_get, he, hl]

/-- After `set` the environment written to holds the value under the name. -/
theorem get_set_same (st : State) (env : Nat) (name : String) (val : Ptr)
    (h : env < st.envs.length) : (st.set env name val).get env name = val := by
  have he : st.envs[env]? = some st.envs[env] := List.getElem?_eq_getElem h
  have hlen : (st.set env name val).envs.length = st.envs.length := by
    simp [State.set, he]
  obtain ⟨k, hk⟩ : ∃ k, st.envs.length = k + 1 := ⟨st.envs.length - 1, by omega⟩
  unfold State.get
  rw [hlen, hk]
  apply env_get_here _ _ _ _ { st.envs[env] with store := store_set st.envs[env].store name val }
  · simp [State.set, he, h]
  · rw [lookup_store_set, if_pos rfl]

end Closures

section Messages

/-- The message of an "identifier not found" error. -/
theorem format_identifier_not_found (light name off : String) :
    format "identifier not found: {}`{}`{}" [light, name, off]
      = "identifier not found: " ++ light ++ "`" ++ name ++ "`" ++ off := by
  apply String.ext
  simp [format, format_chars, String.data_append]

/-- The message of a "type mismatch" error. -/
theorem format_type_mismatch (light left op right off : String) :
    format "type mismatch: {}`{} {} {}`{}" [light, left, op, right, off]
      = "type mismatch: " ++ light ++ "`" ++ left ++ " " ++ op ++ " " ++ right ++ "`" ++ off := by
  apply String.ext
  simp [format, format_chars, String.data_append]

/-- The message of an "unknown operator" error of an infix expression. -/
theorem format_unknown_operator (light left op right off : String) :
    format "unknown operator: {}`{} {} {}`{}" [light, left, op, right, off]
      = "unknown operator: " ++ light ++ "`" ++ left ++ " " ++ op ++ " " ++ right ++ "`" ++ off := by
  apply String.ext
  simp [format, format_chars, String.data_append]

end Messages

section Identifiers

/-- C12: an identifier that resolves in the environment chain evaluates to the value bound
to it, also when a builtin has its name (`let len = 5; len` returns 5); one that does not
resolve and is one of `len`, `first`, `last`, `push`, `rest`, `puts`, `range` evaluates to
a new Builtin object for that function; any other evaluates to an `Error` whose message is
"identifier not found: " followed by the name between backquotes (and colour escapes). -/
theorem identifier_resolution (cfg : Config) (fuel env : Nat) (name : String) (st : State) :
    (∀ val, st.get env name = some val →
      eval cfg (fuel + 1) (.identifier name) env st = .ok (some val, st)) ∧
    (st.get env name = none → ∀ fn,
      (name, fn) ∈ [("len", BuiltinFunction.len), ("first", .first), ("last", .last),
        ("push", .push), ("rest", .rest), ("puts", .puts), ("range", .range)] →
      eval cfg (fuel + 1) (.identifier name) env st
        = .ok (some (.builtin st.next fn), st.bump)) ∧
    (st.get env name = none →
      name ∉ ["len", "first", "last", "push", "rest", "puts", "range"] →
      eval cfg (fuel + 1) (.identifier name) env st
        = .ok (some (.error st.next
            ("identifier not found: " ++ cfg.light ++ "`" ++ name ++ "`" ++ cfg.off)),
          st.bump)) ∧
    returned (eval_input Config.plain 3 shadowing_program State.initial)
      = some (some (.integer 5)) := by
  refine ⟨?_, ?_, ?_, rfl⟩
  · intro val h
    simp [eval, eval_identifier, h]
  · intro h fn hmem
    simp only [List.mem_cons, Prod.mk.injEq, List.mem_singleton, List.not_mem_nil,
      or_false] at hmem
    rcases hmem with ⟨h1, h2⟩ | ⟨h1, h2⟩ | ⟨h1, h2⟩ | ⟨h1, h2⟩ | ⟨h1, h2⟩ | ⟨h1, h2⟩ | ⟨h1, h2⟩ <;>
      subst h1 <;> subst h2 <;> simp [eval, eval_identifier, h, BUILTINS]
  · intro h hname
    simp only [List.mem_cons, List.mem_singleton, List.not_mem_nil, or_false, not_or] at hname
    obtain ⟨h1, h2, h3, h4, h5, h6, h7⟩ := hname
    simp [eval, eval_identifier, h, BUILTINS, h1, h2, h3, h4, h5, h6, h7, new_error,
      format_identifier_not_found]

end Identifiers

section Infix

/-- C13: for every operator string and every two operands, neither a Pending, of different
classes, the infix expression yields an `Error` whose message is "type mismatch: " followed
by the type of the left operand, the operator and the type of the right operand; no test
of the operator comes before. -/
theorem type_mismatch_of_different_classes (cfg : Config) (adr : Nat) (op : String)
    (l r : Object) (hl : l.kind ≠ .async) (hr : r.kind ≠ .async) (hne : l.kind ≠ r.kind) :
    eval_infix_expression cfg adr op l r
      = .ok (.error adr ("type mismatch: " ++ cfg.light ++ "`" ++ cfg.type_name l ++ " " ++ op
          ++ " " ++ cfg.type_name r ++ "`" ++ cfg.off)) := by
  have h1 : ¬ (l.kind = .integer ∧ r.kind = .integer) := fun h => hne (h.1.trans h.2.symm)
  have h2 : ¬ (l.kind = .string ∧ r.kind = .string) := fun h => hne (h.1.trans h.2.symm)
  have h3 : ¬ (l.kind = .array ∧ r.kind = .array) := fun h => hne (h.1.trans h.2.symm)
  simp only [eval_infix_expression, unwrap_async, hl, hr, if_false, h1, h2, h3, hne,
    ne_eq, not_false_eq_true, if_true, new_error, format_type_mismatch]

/-- C13 (witness): `1 ? true`, with an operator the language does not know, is a
"type mismatch" error. -/
theorem type_mismatch_of_different_classes_witness :
    eval_infix_expression Config.plain 0 "?" (.integer 1) (.boolean true)
      = .ok (.error 0 "type mismatch: `INTEGER ? BOOLEAN`") :=
  type_mismatch_of_different_classes Config.plain 0 "?" (.integer 1) (.boolean true)
    (by decide) (by decide) (by decide)

/-- C14: on two Booleans `==` yields True exactly when they are the same constant and
`!=` the negation, and likewise on Null and Null (always the same constant); so
`b1 == b2` on boolean literals is True exactly when `b1 = b2`; every other operator on
two Booleans or on Null and Null yields an "unknown operator" `Error`. -/
theorem boolean_and_null_identity (cfg : Config) (adr : Nat) :
    (∀ b1 b2 : Bool,
      eval_infix_expression cfg adr "==" (.boolean b1) (.boolean b2)
        = .ok (.boolean (decide (b1 = b2))) ∧
      eval_infix_expression cfg adr "!=" (.boolean b1) (.boolean b2)
        = .ok (.boolean (decide (b1 ≠ b2)))) ∧
    eval_infix_expression cfg adr "==" .null .null = .ok (.boolean true) ∧
    eval_infix_expression cfg adr "!=" .null .null = .ok (.boolean false) ∧
    (∀ (fuel env : Nat) (st : State) (b1 b2 : Bool),
      eval cfg (fuel + 2) (.infixExpression "==" (.booleanLiteral b1) (.booleanLiteral b2)) env st
        = .ok (some (.boolean (decide (b1 = b2))), st.bump)) ∧
    (∀ op : String, op ≠ "==" → op ≠ "!=" →
      (∀ b1 b2 : Bool,
        eval_infix_expression cfg adr op (.boolean b1) (.boolean b2)
          = .ok (.error adr ("unknown operator: " ++ cfg.light ++ "`"
              ++ cfg.type_name (.boolean b1) ++ " " ++ op ++ " "
              ++ cfg.type_name (.boolean b2) ++ "`" ++ cfg.off))) ∧
      eval_infix_expression cfg adr op .null .null
        = .ok (.error adr ("unknown operator: " ++ cfg.light ++ "`"
            ++ cfg.type_name .null ++ " " ++ op ++ " " ++ cfg.type_name .null ++ "`"
            ++ cfg.off))) := by
  have hb : ∀ (a : Nat) (b1 b2 : Bool),
      eval_infix_expression cfg a "==" (.boolean b1) (.boolean b2)
        = .ok (.boolean (decide (b1 = b2))) := by
    intro a b1 b2
    cases b1 <;> cases b2 <;>
      simp [eval_infix_expression, unwrap_async, Object.kind, Object.same,
        native_bool_to_boolean_object_eq]
  refine ⟨fun b1 b2 => ⟨hb adr b1 b2, ?_⟩, ?_, ?_, ?_, ?_⟩
  · cases b1 <;> cases b2 <;>
      simp [eval_infix_expression, unwrap_async, Object.kind, Object.same,
        native_bool_to_boolean_object_eq]
  · simp [eval_infix_expression, unwrap_async, Object.kind, Object.same,
      native_bool_to_boolean_object_eq]
  · simp [eval_infix_expression, unwrap_async, Object.kind, Object.same,
      native_bool_to_boolean_object_eq]
  · intro fuel env st b1 b2
    cases b1 <;> cases b2 <;> simp [eval, Object.kind, hb]
  · intro op h1 h2
    refine ⟨fun b1 b2 => ?_, ?_⟩ <;>
      simp [eval_infix_expression, unwrap_async, Object.kind, h1, h2, new_error,
        format_unknown_operator]

/-- C15: on two Strings `+` yields the String of the left one followed by the right one,
and every other operator, `==` and `!=` among them, yields an "unknown operator" `Error`. -/
theorem string_infix_only_concatenates (cfg : Config) (adr : Nat) (s t : String) :
    eval_infix_expression cfg adr "+" (.string s) (.string t) = .ok (.string (s ++ t)) ∧
    (∀ op : String, op ≠ "+" →
      eval_infix_expression cfg adr op (.string s) (.string t)
        = .ok (.error adr ("unknown operator: " ++ cfg.light ++ "`"
            ++ cfg.type_name (.string s) ++ " " ++ op ++ " "
            ++ cfg.type_name (.string t) ++ "`" ++ cfg.off))) ∧
    eval_infix_expression Config.plain 0 "==" (.string "a") (.string "a")
      = .ok (.error 0 "unknown operator: `STRING == STRING`") := by
  refine ⟨?_, ?_, ?_⟩
  · simp [eval_infix_expression, unwrap_async, Object.kind, eval_string_infix_expression]
  · intro op h
    simp [eval_infix_expression, unwrap_async, Object.kind, eval_string_infix_expression, h,
      new_error, format_unknown_operator]
  · simp [eval_infix_expression, unwrap_async, Object.kind, eval_string_infix_expression,
      new_error, format_unknown_operator, Config.plain]

end Infix

section Expressions

/-- The loop of `eval_expressions` over expressions none of which yields an `Error`
appends their values to the results. -/
theorem eval_expressions_loop_values (ev : Evaluation) (env : Nat) :
    ∀ (exps : List Node) (results vals : List Ptr) (st st1 : State),
      evaluates_all ev env exps st = some (vals, st1) →
      eval_expressions_loop ev env exps results st = .ok (results ++ vals, st1) := by
  intro exps
  induction exps with
  | nil =>
    intro results vals st st1 h
    simp only [evaluates_all, Option.some.injEq, Prod.mk.injEq] at h
    obtain ⟨h1, h2⟩ := h
    subst h1; subst h2
    simp [eval_expressions_loop]
  | cons exp exps ih =>
    intro results vals st st1 h
    simp only [evaluates_all] at h
    simp only [eval_expressions_loop]
    cases hev : ev exp env st with
    | error f => simp [hev] at h
    | ok pr =>
      obtain ⟨v, st'⟩ := pr
      cases v with
      | none => simp [hev] at h
      | some val =>
        simp only [hev] at h ⊢
        by_cases hk : val.kind = .error
        · simp [hk] at h
        · simp only [hk, if_false] at h
          cases hrest : evaluates_all ev env exps st' with
          | none => simp [hrest] at h
          | some pr2 =>
            obtain ⟨vals2, st2⟩ := pr2
            simp only [hrest, Option.some.injEq, Prod.mk.injEq] at h
            obtain ⟨h1, h2⟩ := h
            subst h1; subst h2
            simp [is_error, hk, ih _ _ _ _ hrest]

/-- The loop of `eval_expressions` stops at the first expression that yields an `Error` and
returns that `Error` alone. -/
theorem eval_expressions_loop_error (ev : Evaluation) (env : Nat) (e : Node)
    (post : List Node) (err : Object) (st1 st2 : State)
    (he : ev e env st1 = .ok (some err, st2)) (herr : err.kind = .error) :
    ∀ (pre : List Node) (results vals : List Ptr) (st : State),
      evaluates_all ev env pre st = some (vals, st1) →
      eval_expressions_loop ev env (pre ++ e :: post) results st = .ok ([some err], st2) := by
  intro pre
  induction pre with
  | nil =>
    intro results vals st h
    simp only [evaluates_all, Option.some.injEq, Prod.mk.injEq] at h
    obtain ⟨_, h2⟩ := h
    subst h2
    simp [eval_expressions_loop, he, is_error, herr]
  | cons exp exps ih =>
    intro results vals st h
    simp only [evaluates_all] at h
    simp only [List.cons_append, eval_expressions_loop]
    cases hev : ev exp env st with
    | error f => simp [hev] at h
    | ok pr =>
      obtain ⟨v, st'⟩ := pr
      cases v with
      | none => simp [hev] at h
      | some val =>
        simp only [hev] at h ⊢
        by_cases hk : val.kind = .error
        · simp [hk] at h
        · simp only [hk, if_false] at h
          cases hrest : evaluates_all ev env exps st' with
          | none => simp [hrest] at h
          | some pr2 =>
            obtain ⟨vals2, st3⟩ := pr2
            simp only [hrest, Option.some.injEq, Prod.mk.injEq] at h
            obtain ⟨_, h2⟩ := h
            subst h2
            simp [is_error, hk, ih _ _ _ hrest]

/-- The first of the values of expressions none of which yields an `Error` is no `Error`. -/
theorem evaluates_all_head (ev : Evaluation) (env : Nat) (exps : List Node)
    (first : Ptr) (vals : List Ptr) (st st1 : State)
    (h : evaluates_all ev env exps st = some (first :: vals, st1)) :
    is_error first = .ok false := by
  cases exps with
  | nil => simp [evaluates_all] at h
  | cons exp exps =>
    simp only [evaluates_all] at h
    cases hev : ev exp env st with
    | error f => simp [hev] at h
    | ok pr =>
      obtain ⟨v, st'⟩ := pr
      cases v with
      | none => simp [hev] at h
      | some val =>
        simp only [hev] at h
        by_cases hk : val.kind = .error
        · simp [hk] at h
        · simp only [hk, if_false] at h
          cases hrest : evaluates_all ev env exps st' with
          | none => simp [hrest] at h
          | some pr2 =>
            simp only [hrest, Option.some.injEq, Prod.mk.injEq, List.cons.injEq] at h
            obtain ⟨⟨h1, _⟩, _⟩ := h
            subst h1
            simp [is_error, hk]

/-- C16: when the expressions before expression `e` of an element or argument list yield
values none of which is an `Error` and `e` yields the `Error` `err`, then, whatever
expressions `post` follow, none of them is evaluated and the array literal, and the call
expression (whose callee yields no `Error`), evaluate to `err` itself in the state `e`
left; when no expression of the list yields an `Error`, the array literal evaluates to
the Array of the values in source order. -/
theorem first_error_of_expressions (cfg : Config) (fuel env : Nat) (pre post : List Node)
    (e : Node) (err : Object) (vals : List Ptr) (st st1 st2 : State)
    (hpre : evaluates_all (eval cfg fuel) env pre st = some (vals, st1))
    (he : eval cfg fuel e env st1 = .ok (some err, st2)) (herr : err.kind = .error) :
    eval cfg (fuel + 1) (.arrayLiteral (pre ++ e :: post)) env st = .ok (some err, st2) ∧
    (∀ (callee : Node) (st0 : State) (fn : Object),
      eval cfg fuel callee env st0 = .ok (some fn, st) → fn.kind ≠ .error →
      eval cfg (fuel + 1) (.callExpression callee (pre ++ e :: post)) env st0
        = .ok (some err, st2)) ∧
    (∀ (exps : List Node) (all : List Ptr) (st3 : State),
      evaluates_all (eval cfg fuel) env exps st = some (all, st3) →
      eval cfg (fuel + 1) (.arrayLiteral exps) env st = .ok (some (.array all), st3)) := by
  have hloop := eval_expressions_loop_error (eval cfg fuel) env e post err st1 st2 he herr
    pre [] vals st hpre
  refine ⟨?_, ?_, ?_⟩
  · simp [eval, eval_expressions, hloop, is_error, herr]
  · intro callee st0 fn hc hfn
    simp [eval, hc, hfn, eval_expressions, hloop, is_error, herr]
  · intro exps all st3 hall
    have hl := eval_expressions_loop_values (eval cfg fuel) env exps [] all st st3 hall
    simp only [List.nil_append] at hl
    cases all with
    | nil => simp [eval, eval_expressions, hl]
    | cons first rest =>
      have hf := evaluates_all_head _ _ _ _ _ _ _ hall
      simp [eval, eval_expressions, hl, hf]

/-- C16 (witness): the array literal `[1, 1 + true, 3]` evaluates to the "type mismatch"
`Error` of its second element. -/
theorem first_error_of_expressions_witness :
    eval Config.plain 3 (.arrayLiteral elements_with_error) 0 State.initial
      = .ok (some (.error 0 "type mismatch: `INTEGER + BOOLEAN`"), State.initial.bump) :=
  (first_error_of_expressions Config.plain 2 0 [.integerLiteral 1] [.integerLiteral 3]
    (.infixExpression "+" (.integerLiteral 1) (.booleanLiteral true))
    (.error 0 "type mismatch: `INTEGER + BOOLEAN`") [some (.integer 1)]
    State.initial State.initial State.initial.bump rfl rfl rfl).1

end Expressions

section Propagation

/-- C17 (the code at the failing input): the hash literal `{1: 1 + true}` evaluates to a
Hash, whatever the configuration; with pairs kept in a list, to the Hash that holds the
"type mismatch" `Error` as the value of the key 1. -/
theorem hash_literal_keeps_error (cfg : Config) :
    (returned (eval_input cfg 5 hash_with_error State.initial)).map (Option.map Object.kind)
      = some (some .hash) ∧
    returned (eval_input Config.plain 5 hash_with_error State.initial)
      = some (some (.hash 0
          [(some (.integer 1), some (.error 1 "type mismatch: `INTEGER + BOOLEAN`"))])) :=
  ⟨rfl, rfl⟩

/-- C18 (the code at the failing inputs): on a Pending whose task ended in an `Error`, `!`
yields the False constant, `+` with an Integer a new "type mismatch" `Error`, and the
index operator a new "index operator not supported" `Error`; so do the programs
`!fn() { 1 + true }()`, `fn() { 1 + true }() + 1` and `fn() { 1 + true }()[0]`. -/
theorem forced_error_is_not_propagated (cfg : Config) (adr a b : Nat) (message : String) :
    eval_prefix_expression cfg adr "!" (.async a (some (.error b message)))
      = .ok (.boolean false) ∧
    eval_infix_expression cfg adr "+" (.async a (some (.error b message))) (.integer 1)
      = .ok (.error adr ("type mismatch: " ++ cfg.light ++ "`"
          ++ cfg.type_name (.error b message) ++ " " ++ "+" ++ " "
          ++ cfg.type_name (.integer 1) ++ "`" ++ cfg.off)) ∧
    (∃ text, eval_index_expression cfg adr (.async a (some (.error b message))) (.integer 0)
      = .ok (some (.error adr text))) ∧
    returned (eval_input Config.plain 9 bang_of_failing_call State.initial)
      = some (some (.boolean false)) ∧
    returned (eval_input Config.plain 9 sum_with_failing_call State.initial)
      = some (some (.error 3 "type mismatch: `ERROR + INTEGER`")) ∧
    returned (eval_input Config.plain 9 index_of_failing_call State.initial)
      = some (some (.error 3 "index operator not supported: `ERROR`")) := by
  refine ⟨?_, ?_, ⟨_, rfl⟩, rfl, rfl, rfl⟩
  · simp [eval_prefix_expression, unwrap_async, Object.kind, Object.object,
      eval_bang_operator_expression]
  · simp [eval_infix_expression, unwrap_async, Object.kind, Object.object, new_error,
      format_type_mismatch]

end Propagation

section Builtins

/-- The arity error for one expected argument. -/
theorem wrong_number_one (adr got : Nat) :
    wrong_number adr "1" got
      = some (.error adr ("wrong number of arguments. expected 1, got " ++ toString got)) := by
  unfold wrong_number
  congr 2
  apply String.ext
  simp [format, format_chars, String.data_append]

/-- The arity error for two expected arguments. -/
theorem wrong_number_two (adr got : Nat) :
    wrong_number adr "2" got
      = some (.error adr ("wrong number of arguments. expected 2, got " ++ toString got)) := by
  unfold wrong_number
  congr 2
  apply String.ext
  simp [format, format_chars, String.data_append]

/-- The arity error for one or two expected arguments. -/
theorem wrong_number_one_or_two (adr got : Nat) :
    wrong_number adr "1 or 2" got
      = some (.error adr
          ("wrong number of arguments. expected 1 or 2, got " ++ toString got)) := by
  unfold wrong_number
  congr 2
  apply String.ext
  simp [format, format_chars, String.data_append]

/-- The message of `len` about the type of its argument. -/
theorem format_len_not_supported (type : String) :
    format "argument to `len` not supported, got {}" [type]
      = "argument to `len` not supported, got " ++ type := by
  apply String.ext
  simp [format, format_chars, String.data_append]

/-- The message of `first` about the type of its argument. -/
theorem format_front_not_supported (type : String) :
    format "argument to `front` not supported, got {}" [type]
      = "argument to `front` not supported, got " ++ type := by
  apply String.ext
  simp [format, format_chars, String.data_append]

/-- The message of `last` about the type of its argument. -/
theorem format_last_not_supported (type : String) :
    format "argument to `last` not supported, got {}" [type]
      = "argument to `last` not supported, got " ++ type := by
  apply String.ext
  simp [format, format_chars, String.data_append]

/-- The message of `push` and of `rest` about the type of their argument. -/
theorem format_push_not_supported (type : String) :
    format "argument to `push` not supported, got {}" [type]
      = "argument to `push` not supported, got " ++ type := by
  apply String.ext
  simp [format, format_chars, String.data_append]

/-- The message of `range` about the type of an argument. -/
theorem format_range_not_int (type : String) :
    format "argument type to `range` is int, get {}" [type]
      = "argument type to `range` is int, get " ++ type := by
  apply String.ext
  simp [format, format_chars, String.data_append]

/-- A message about an argument is no message about the number of arguments. -/
theorem argument_ne_wrong_number (a b : String) :
    "argument " ++ a ≠ "wrong number of arguments. expected " ++ b := by
  intro h
  have := congrArg String.data h
  simp [String.data_append] at this

end Builtins

section BuiltinContracts

/-- The function `len` on one object. -/
theorem builtin_len_one (cfg : Config) (adr : Nat) (o : Object) :
    builtin_len cfg adr [some o] =
      match o with
      | .string value => .ok (some (.integer (wrap64 value.utf8ByteSize)))
      | .array elems => .ok (some (.integer (wrap64 elems.length)))
      | _ => .ok (some (.error adr
          ("argument to `len` not supported, got " ++ cfg.type_name o))) := by
  cases o <;> simp [builtin_len, format_len_not_supported]

/-- An `Error` of the type check of `range` is about the type of an argument. -/
theorem range_check_error (cfg : Config) (adr : Nat) :
    ∀ (args : List Ptr) (e : Object), range_check cfg adr args = .ok (some e) →
      ∃ type, e = .error adr ("argument type to `range` is int, get " ++ type) := by
  intro args
  induction args with
  | nil => intro e h; simp [range_check] at h
  | cons arg args ih =>
    intro e h
    cases arg with
    | none => simp [range_check] at h
    | some o =>
      cases o with
      | integer value => exact ih e (by simpa [range_check] using h)
      | _ =>
        simp only [range_check, Except.ok.injEq, Option.some.injEq] at h
        exact ⟨_, by rw [← h, format_range_not_int]⟩

/-- The type check of `range` stops at a first argument that is no Integer. -/
theorem range_check_first (cfg : Config) (adr : Nat) (o : Object) (rest : List Ptr)
    (h : o.kind ≠ .integer) :
    range_check cfg adr (some o :: rest) = .ok (some (.error adr
      ("argument type to `range` is int, get " ++ cfg.type_name o))) := by
  cases o <;> first
    | exact absurd rfl h
    | simp [range_check, format_range_not_int]

/-- C19: for an argument list of length `n`, each of `len`, `first`, `last`, `rest` returns
the `Error` "wrong number of arguments. expected 1, got n" when `n ≠ 1`, `push` the one
with "expected 2" when `n ≠ 2`, `range` the one with "expected 1 or 2" when `n` is
neither 1 nor 2; with the expected count `len`, `rest`, `push` and `range` return no such
`Error`, and `first` and `last` return the first or last element (Null for the empty
Array); `puts` returns Null whenever it returns; with the expected count and an argument
of an unsupported class each of the six returns an `Error` about the argument. -/
theorem builtin_arity_and_type_errors (cfg : Config) (adr : Nat) (args : List Ptr) :
    (builtin_len cfg adr args = .ok (some (.error adr
        ("wrong number of arguments. expected 1, got " ++ toString args.length)))
      ↔ args.length ≠ 1) ∧
    (builtin_rest cfg adr args = .ok (some (.error adr
        ("wrong number of arguments. expected 1, got " ++ toString args.length)))
      ↔ args.length ≠ 1) ∧
    (builtin_push cfg adr args = .ok (some (.error adr
        ("wrong number of arguments. expected 2, got " ++ toString args.length)))
      ↔ args.length ≠ 2) ∧
    (builtin_range cfg adr args = .ok (some (.error adr
        ("wrong number of arguments. expected 1 or 2, got " ++ toString args.length)))
      ↔ (args.length ≠ 1 ∧ args.length ≠ 2)) ∧
    (args.length ≠ 1 →
      builtin_first cfg adr args = .ok (some (.error adr
        ("wrong number of arguments. expected 1, got " ++ toString args.length))) ∧
      builtin_last cfg adr args = .ok (some (.error adr
        ("wrong number of arguments. expected 1, got " ++ toString args.length)))) ∧
    ((∀ elems : List Ptr, args = [some (.array elems)] →
        elems.head? ≠ some (some (.error adr
          ("wrong number of arguments. expected 1, got " ++ toString args.length)))) →
      (builtin_first cfg adr args = .ok (some (.error adr
          ("wrong number of arguments. expected 1, got " ++ toString args.length)))
        ↔ args.length ≠ 1)) ∧
    ((∀ elems : List Ptr, args = [some (.array elems)] →
        elems.getLast? ≠ some (some (.error adr
          ("wrong number of arguments. expected 1, got " ++ toString args.length)))) →
      (builtin_last cfg adr args = .ok (some (.error adr
          ("wrong number of arguments. expected 1, got " ++ toString args.length)))
        ↔ args.length ≠ 1)) ∧
    (∀ elems : List Ptr,
      builtin_first cfg adr [some (.array elems)] = .ok (elems.head?.getD (some .null)) ∧
      builtin_last cfg adr [some (.array elems)] = .ok (elems.getLast?.getD (some .null))) ∧
    (∀ (st st1 : State) (val : Ptr), builtin_puts args st = .ok (val, st1) →
      val = some .null) ∧
    (∀ o : Object, o.kind ≠ .string → o.kind ≠ .array →
      builtin_len cfg adr [some o] = .ok (some (.error adr
        ("argument to `len` not supported, got " ++ cfg.type_name o)))) ∧
    (∀ o : Object, o.kind ≠ .array →
      builtin_first cfg adr [some o] = .ok (some (.error adr
        ("argument to `front` not supported, got " ++ cfg.type_name o))) ∧
      builtin_last cfg adr [some o] = .ok (some (.error adr
        ("argument to `last` not supported, got " ++ cfg.type_name o))) ∧
      builtin_rest cfg adr [some o] = .ok (some (.error adr
        ("argument to `push` not supported, got " ++ cfg.type_name o))) ∧
      ∀ x : Ptr, builtin_push cfg adr [some o, x] = .ok (some (.error adr
        ("argument to `push` not supported, got " ++ cfg.type_name o)))) ∧
    (∀ o : Object, o.kind ≠ .integer →
      builtin_range cfg adr [some o] = .ok (some (.error adr
        ("argument type to `range` is int, get " ++ cfg.type_name o))) ∧
      (∀ x : Ptr, builtin_range cfg adr [some o, x] = .ok (some (.error adr
        ("argument type to `range` is int, get " ++ cfg.type_name o)))) ∧
      ∀ value : Int, builtin_range cfg adr [some (.integer value), some o]
        = .ok (some (.error adr
            ("argument type to `range` is int, get " ++ cfg.type_name o)))) := by
  refine ⟨?_, ?_, ?_, ?_, ?_, ?_, ?_, ?_, ?_, ?_, ?_, ?_⟩
  · -- len
    constructor
    · intro h hlen
      match args, hlen with
      | [arg], _ =>
        cases arg with
        | none => simp [builtin_len] at h
        | some o =>
          rw [builtin_len_one] at h
          cases o <;> simp at h
          all_goals
            have := congrArg String.data h
            simp [String.data_append] at this
    · intro h
      match args, h with
      | [], _ => simp [builtin_len, wrong_number_one]
      | _ :: _ :: _, _ => simp [builtin_len, wrong_number_one]
  · -- rest
    constructor
    · intro h hlen
      match args, hlen with
      | [arg], _ =>
        cases arg with
        | none => simp [builtin_rest] at h
        | some o =>
          cases o with
          | array elems => cases elems <;> simp [builtin_rest] at h
          | _ =>
            simp [builtin_rest, format_push_not_supported] at h
            have := congrArg String.data h
            simp [String.data_append] at this
    · intro h
      match args, h with
      | [], _ => simp [builtin_rest, wrong_number_one]
      | _ :: _ :: _, _ => simp [builtin_rest, wrong_number_one]
  · -- push
    constructor
    · intro h hlen
      match args, hlen with
      | [arg0, arg1], _ =>
        cases arg0 with
        | none => simp [builtin_push] at h
        | some o =>
          cases o with
          | array elems => simp [builtin_push] at h
          | _ =>
            simp [builtin_push, format_push_not_supported] at h
            have := congrArg String.data h
            simp [String.data_append] at this
    · intro h
      match args, h with
      | [], _ => simp [builtin_push, wrong_number_two]
      | [_], _ => simp [builtin_push, wrong_number_two]
      | _ :: _ :: _ :: _, _ => simp [builtin_push, wrong_number_two]
  · -- range
    constructor
    · intro h
      by_contra hlen
      have hl : ¬ (args.length ≠ 1 ∧ args.length ≠ 2) := hlen
      simp only [builtin_range, hl, if_false] at h
      cases hc : range_check cfg adr args with
      | error f => simp [hc] at h
      | ok r =>
        cases r with
        | none => simp [hc] at h
        | some e =>
          obtain ⟨type, ht⟩ := range_check_error cfg adr args e hc
          subst ht
          simp only [hc, Except.ok.injEq, Option.some.injEq, Object.error.injEq, true_and] at h
          have := congrArg String.data h
          simp [String.data_append] at this
    · intro h
      simp [builtin_range, h, wrong_number_one_or_two]
  · -- first and last with a wrong count
    intro h
    match args, h with
    | [], _ => simp [builtin_first, builtin_last, wrong_number_one]
    | _ :: _ :: _, _ => simp [builtin_first, builtin_last, wrong_number_one]
  · -- first, both directions
    intro hfresh
    constructor
    · intro h hlen
      match args, hlen, hfresh, h with
      | [arg], _, hfresh, h =>
        cases arg with
        | none => simp [builtin_first] at h
        | some o =>
          cases o with
          | array elems =>
            cases elems with
            | nil => simp [builtin_first] at h
            | cons e rest =>
              simp only [builtin_first, Except.ok.injEq] at h
              exact hfresh (e :: rest) rfl (congrArg some h)
          | _ =>
            simp [builtin_first, format_front_not_supported] at h
            have := congrArg String.data h
            simp [String.data_append] at this
    · intro h
      match args, h with
      | [], _ => simp [builtin_first, wrong_number_one]
      | _ :: _ :: _, _ => simp [builtin_first, wrong_number_one]
  · -- last, both directions
    intro hfresh
    constructor
    · intro h hlen
      match args, hlen, hfresh, h with
      | [arg], _, hfresh, h =>
        cases arg with
        | none => simp [builtin_last] at h
        | some o =>
          cases o with
          | array elems =>
            cases hl : elems.getLast? with
            | none => simp [builtin_last, hl] at h
            | some e =>
              simp only [builtin_last, hl, Except.ok.injEq] at h
              exact hfresh elems rfl (hl.trans (congrArg some h))
          | _ =>
            simp [builtin_last, format_last_not_supported] at h
            have := congrArg String.data h
            simp [String.data_append] at this
    · intro h
      match args, h with
      | [], _ => simp [builtin_last, wrong_number_one]
      | _ :: _ :: _, _ => simp [builtin_last, wrong_number_one]
  · -- first and last on an Array
    intro elems
    constructor
    · cases elems <;> simp [builtin_first]
    · cases h : elems.getLast? <;> simp [builtin_last, h]
  · -- puts
    intro st st1 val
    induction args generalizing st with
    | nil => intro h; simp [builtin_puts] at h; exact h.1.symm
    | cons arg args ih =>
      intro h
      cases arg with
      | none => simp [builtin_puts] at h
      | some e => exact ih _ (by simpa [builtin_puts] using h)
  · -- len on an unsupported class
    intro o h1 h2
    rw [builtin_len_one]
    cases o <;> first
      | exact absurd rfl h1
      | exact absurd rfl h2
      | rfl
  · -- first, last, rest, push on an unsupported class
    intro o h
    cases o <;> first
      | exact absurd rfl h
      | simp [builtin_first, builtin_last, builtin_rest, builtin_push,
          format_front_not_supported, format_last_not_supported, format_push_not_supported]
  · -- range on an unsupported class
    intro o h
    refine ⟨?_, ?_, ?_⟩
    · simp [builtin_range, range_check_first cfg adr o [] h]
    · intro x
      simp [builtin_range, range_check_first cfg adr o [x] h]
    · intro value
      simp [builtin_range, range_check, range_check_first cfg adr o [] h]

/-- C20: for an Array with elements `e[0..n-1]` and a value `x`, `push` returns the
Array of `e[0..n-1]` followed by `x`, of length `n + 1`; run as a builtin it changes no
environment, so the Array it was given stays as it was: `let a = [1]; push(a, 2);`
returns `[1, 2]` and `let a = [1]; push(a, 2); a` returns `[1]`. -/
theorem push_appends_to_a_copy (cfg : Config) (adr : Nat) (elems : List Ptr) (x : Ptr) :
    builtin_push cfg adr [some (.array elems), x] = .ok (some (.array (elems ++ [x]))) ∧
    (elems ++ [x]).length = elems.length + 1 ∧
    (∀ i (h : i < elems.length), (elems ++ [x])[i]? = some (elems.get ⟨i, h⟩)) ∧
    (elems ++ [x])[elems.length]? = some x ∧
    (∀ st : State, BuiltinFunction.push.run cfg [some (.array elems), x] st
      = .ok (some (.array (elems ++ [x])), st.bump) ∧ st.bump.envs = st.envs) ∧
    returned (eval_input Config.plain 6 push_program State.initial)
      = some (some (.array [some (.integer 1), some (.integer 2)])) ∧
    returned (eval_input Config.plain 6 push_then_read_program State.initial)
      = some (some (.array [some (.integer 1)])) := by
  refine ⟨rfl, by simp, ?_, by simp, fun st => ⟨rfl, rfl⟩, rfl, rfl⟩
  intro i h
  rw [List.getElem?_append_left h, List.getElem?_eq_getElem h]
  rfl

end BuiltinContracts

section Range

/-- The value is an `int`. -/
theorem wrap32_of_int (x : Int) (h : -2147483648 ≤ x ∧ x < 2147483648) : wrap32 x = x := by
  unfold wrap32; omega

/-- C21 (the code at the failing input): `range(4294967296, 4294967298)` returns the Array
of the Integers 0 and 1, the bounds reduced to 32 bits, and `range(2147483648)` the empty
Array. -/
theorem range_truncates_to_int (cfg : Config) (adr : Nat) :
    builtin_range cfg adr [some (.integer 4294967296), some (.integer 4294967298)]
      = .ok (some (.array [some (.integer 0), some (.integer 1)])) ∧
    builtin_range cfg adr [some (.integer 2147483648)] = .ok (some (.array [])) ∧
    returned (eval_input Config.plain 6 range_beyond_int State.initial)
      = some (some (.array [some (.integer 0), some (.integer 1)])) := by
  refine ⟨?_, ?_, ?_⟩
  · simp [builtin_range, range_check, range_bound, wrap32, List.range, List.range.loop]
  · simp [builtin_range, range_check, range_bound, wrap32, List.range, List.range.loop]
  · rfl

/-- Within the range of `int` the function `range` is as specified: for bounds `l ≤ r`
that are `int`s, `range(l, r)` is the Array of `r - l` Integers, the one at index `k`
being `l + k`; for `r ≤ l` it is empty; and `range(n)` is `range(0, n)`. -/
theorem range_within_int (cfg : Config) (adr : Nat) (l r : Int)
    (hl : -2147483648 ≤ l ∧ l < 2147483648) (hr : -2147483648 ≤ r ∧ r < 2147483648) :
    builtin_range cfg adr [some (.integer l), some (.integer r)]
      = .ok (some (.array ((List.range (r - l).toNat).map
          (fun k => some (.integer (l + k)))))) ∧
    builtin_range cfg adr [some (.integer r)]
      = .ok (some (.array ((List.range r.toNat).map (fun k => some (.integer (k : Int)))))) := by
  constructor
  · simp [builtin_range, range_check, range_bound, wrap32_of_int l hl, wrap32_of_int r hr]
  · simp [builtin_range, range_check, range_bound, wrap32_of_int r hr]

end Range

section Fuel

/-- The loop of `eval_expressions` returns the same with an evaluator that returns more. -/
theorem eval_expressions_loop_below (ev1 ev2 : Evaluation) (h : below ev1 ev2) (env : Nat) :
    ∀ (exps : List Node) (results : List Ptr) (st : State) (r : List Ptr × State),
      eval_expressions_loop ev1 env exps results st = .ok r →
      eval_expressions_loop ev2 env exps results st = .ok r := by
  intro exps
  induction exps with
  | nil => intro results st r hr; simpa [eval_expressions_loop] using hr
  | cons exp exps ih =>
    intro results st r hr
    simp only [eval_expressions_loop] at hr ⊢
    cases h1 : ev1 exp env st with
    | error f => simp [h1] at hr
    | ok p =>
      rw [h _ _ _ _ h1]
      rw [h1] at hr
      obtain ⟨val, st1⟩ := p
      simp only at hr ⊢
      cases h2 : is_error val with
      | error f => simp [h2] at hr
      | ok b =>
        rw [h2] at hr
        cases b with
        | true => exact hr
        | false => exact ih _ _ _ hr

/-- The loop of a Block returns the same with an evaluator that returns more. -/
theorem eval_statments_loop_below (ev1 ev2 : Evaluation) (h : below ev1 ev2) (env : Nat) :
    ∀ (stats : List Node) (result : Ptr) (st : State) (r : Ptr × State),
      eval_statments_loop ev1 env stats result st = .ok r →
      eval_statments_loop ev2 env stats result st = .ok r := by
  intro stats
  induction stats with
  | nil => intro result st r hr; simpa [eval_statments_loop] using hr
  | cons stat stats ih =>
    intro result st r hr
    simp only [eval_statments_loop] at hr ⊢
    cases h1 : ev1 stat env st with
    | error f => simp [h1] at hr
    | ok p =>
      rw [h _ _ _ _ h1]
      rw [h1] at hr
      obtain ⟨val, st1⟩ := p
      cases val with
      | none => exact ih _ _ _ hr
      | some obj =>
        simp only at hr ⊢
        by_cases hk : obj.kind = .returnValue ∨ obj.kind = .error
        · simpa only [hk, if_true] using hr
        · simp only [hk, if_false] at hr ⊢
          exact ih _ _ _ hr

/-- The loop of a Program returns the same with an evaluator that returns more. -/
theorem eval_program_loop_below (ev1 ev2 : Evaluation) (h : below ev1 ev2) (env : Nat) :
    ∀ (stats : List Node) (result : Ptr) (st : State) (r : Ptr × State),
      eval_program_loop ev1 env stats result st = .ok r →
      eval_program_loop ev2 env stats result st = .ok r := by
  intro stats
  induction stats with
  | nil => intro result st r hr; simpa [eval_program_loop] using hr
  | cons stat stats ih =>
    intro result st r hr
    simp only [eval_program_loop] at hr ⊢
    cases h1 : ev1 stat env st with
    | error f => simp [h1] at hr
    | ok p =>
      rw [h _ _ _ _ h1]
      rw [h1] at hr
      obtain ⟨val, st1⟩ := p
      cases val with
      | none => exact ih _ _ _ hr
      | some obj =>
        simp only at hr ⊢
        split at hr
        · simp at hr
        · exact hr
        · exact hr
        · exact ih _ _ _ hr

/-- An if-expression returns the same with an evaluator that returns more. -/
theorem eval_if_expression_below (ev1 ev2 : Evaluation) (h : below ev1 ev2)
    (condition consequence alternative : Node) (env : Nat) (st : State) (r : Ptr × State)
    (hr : eval_if_expression ev1 condition consequence alternative env st = .ok r) :
    eval_if_expression ev2 condition consequence alternative env st = .ok r := by
  simp only [eval_if_expression] at hr ⊢
  by_cases hc : condition.is_null = true
  · simpa only [hc, if_true] using hr
  · simp only [hc, if_false] at hr ⊢
    cases h1 : ev1 condition env st with
    | error f => simp [h1] at hr
    | ok p =>
      rw [h _ _ _ _ h1]
      rw [h1] at hr
      obtain ⟨cond, st1⟩ := p
      simp only at hr ⊢
      cases h2 : is_error cond with
      | error f => simp [h2] at hr
      | ok b =>
        rw [h2] at hr
        cases b with
        | true => exact hr
        | false =>
          simp only at hr ⊢
          by_cases ht : is_truthy cond = true ∧ ¬ consequence.is_null = true
          · simp only [ht, if_true] at hr ⊢
            exact h _ _ _ _ hr
          · simp only [ht, if_false] at hr ⊢
            by_cases ha : ¬ alternative.is_null = true
            · simp only [ha, if_true] at hr ⊢
              exact h _ _ _ _ hr
            · simpa only [ha, if_false] using hr

/-- The loop of a hash literal returns the same with an evaluator that returns more. -/
theorem eval_hash_pairs_below (cfg : Config) (ev1 ev2 : Evaluation) (h : below ev1 ev2)
    (env : Nat) :
    ∀ (pairs : List (Node × Node)) (ret : List (Ptr × Ptr)) (st : State)
      (r : Option (List (Ptr × Ptr)) × State),
      eval_hash_pairs cfg ev1 env pairs ret st = .ok r →
      eval_hash_pairs cfg ev2 env pairs ret st = .ok r := by
  intro pairs
  induction pairs with
  | nil => intro ret st r hr; simpa [eval_hash_pairs] using hr
  | cons pair pairs ih =>
    intro ret st r hr
    simp only [eval_hash_pairs] at hr ⊢
    cases h1 : ev1 pair.1 env st with
    | error f => simp [h1] at hr
    | ok p =>
      rw [h _ _ _ _ h1]
      rw [h1] at hr
      obtain ⟨key, st1⟩ := p
      cases key with
      | none => exact hr
      | some key =>
        simp only at hr ⊢
        cases h2 : ev1 pair.2 env st1 with
        | error f => simp [h2] at hr
        | ok q =>
          rw [h _ _ _ _ h2]
          rw [h2] at hr
          obtain ⟨val, st2⟩ := q
          cases val with
          | none => exact hr
          | some val => exact ih _ _ _ hr

/-- A hash literal returns the same with an evaluator that returns more. -/
theorem eval_hash_literal_below (cfg : Config) (ev1 ev2 : Evaluation) (h : below ev1 ev2)
    (pairs : List (Node × Node)) (env : Nat) (st : State) (r : Ptr × State)
    (hr : eval_hash_literal cfg ev1 pairs env st = .ok r) :
    eval_hash_literal cfg ev2 pairs env st = .ok r := by
  simp only [eval_hash_literal] at hr ⊢
  cases h1 : eval_hash_pairs cfg ev1 env pairs [] st.bump with
  | error f => simp [h1] at hr
  | ok p =>
    rw [eval_hash_pairs_below cfg ev1 ev2 h env _ _ _ _ h1]
    rw [h1] at hr
    exact hr

/-- A function application returns the same with an evaluator that returns more. -/
theorem apply_function_below (cfg : Config) (ev1 ev2 : Evaluation) (h : below ev1 ev2)
    (fn : Object) (args : List Ptr) (st : State) (r : Ptr × State)
    (hr : apply_function cfg ev1 fn args st = .ok r) :
    apply_function cfg ev2 fn args st = .ok r := by
  simp only [apply_function] at hr ⊢
  cases h1 : unwrap_arguments args with
  | error f => simp [h1] at hr
  | ok forced =>
    rw [h1] at hr
    simp only at hr ⊢
    cases h2 : unwrap_async fn with
    | none => simp [h2] at hr
    | some callee =>
      rw [h2] at hr
      cases callee with
      | function adr parameters body fn_env =>
        simp only at hr ⊢
        cases h3 : ev1 body (extend_function_env parameters fn_env forced st).1
            (extend_function_env parameters fn_env forced st).2 with
        | error f => simp [h3] at hr
        | ok p =>
          rw [h _ _ _ _ h3]
          rw [h3] at hr
          exact hr
      | _ => exact hr

/-- Fuel is never harmful: what the evaluator returns with some fuel it returns with more. -/
theorem eval_fuel_le (cfg : Config) :
    ∀ fuel fuel2 : Nat, fuel ≤ fuel2 → below (eval cfg fuel) (eval cfg fuel2) := by
  intro fuel
  induction fuel with
  | zero => intro fuel2 _ node env st r hr; simp [eval] at hr
  | succ fuel ih =>
    intro fuel2 hle node env st r hr
    obtain ⟨k, hk⟩ : ∃ k, fuel2 = k + 1 := ⟨fuel2 - 1, by omega⟩
    subst hk
    have hb : below (eval cfg fuel) (eval cfg k) := ih k (by omega)
    cases node with
    | nil => simpa only [eval] using hr
    | program statments =>
      simp only [eval, eval_program] at hr ⊢
      exact eval_program_loop_below _ _ hb env _ _ _ _ hr
    | expressionStatment expression =>
      simp only [eval] at hr ⊢
      exact hb _ _ _ _ hr
    | blockStatment statments =>
      simp only [eval, eval_statments] at hr ⊢
      exact eval_statments_loop_below _ _ hb env _ _ _ _ hr
    | returnStatment expression =>
      simp only [eval] at hr ⊢
      cases h1 : eval cfg fuel expression env st with
      | error f => simp [h1] at hr
      | ok p => rw [hb _ _ _ _ h1]; rw [h1] at hr; exact hr
    | letStatment identifier expression =>
      simp only [eval] at hr ⊢
      cases h1 : eval cfg fuel expression env st with
      | error f => simp [h1] at hr
      | ok p => rw [hb _ _ _ _ h1]; rw [h1] at hr; exact hr
    | integerLiteral value => simpa only [eval] using hr
    | booleanLiteral value => simpa only [eval] using hr
    | stringLiteral value => simpa only [eval] using hr
    | arrayLiteral elements =>
      simp only [eval, eval_expressions] at hr ⊢
      cases h1 : eval_expressions_loop (eval cfg fuel) env elements [] st with
      | error f => simp [h1] at hr
      | ok p =>
        rw [eval_expressions_loop_below _ _ hb env _ _ _ _ h1]
        rw [h1] at hr
        exact hr
    | hashLiteral pairs =>
      simp only [eval] at hr ⊢
      exact eval_hash_literal_below cfg _ _ hb _ _ _ _ hr
    | prefixExpression op right =>
      simp only [eval] at hr ⊢
      cases h1 : eval cfg fuel right env st with
      | error f => simp [h1] at hr
      | ok p => rw [hb _ _ _ _ h1]; rw [h1] at hr; exact hr
    | infixExpression op left right =>
      simp only [eval] at hr ⊢
      cases h1 : eval cfg fuel left env st with
      | error f => simp [h1] at hr
      | ok p =>
        rw [hb _ _ _ _ h1]
        rw [h1] at hr
        obtain ⟨l, st1⟩ := p
        cases l with
        | none => exact hr
        | some l =>
          simp only at hr ⊢
          by_cases hk : l.kind = .error
          · simpa only [hk, if_true] using hr
          · simp only [hk, if_false] at hr ⊢
            cases h2 : eval cfg fuel right env st1 with
            | error f => simp [h2] at hr
            | ok q => rw [hb _ _ _ _ h2]; rw [h2] at hr; exact hr
    | ifExpression condition consequence alternative =>
      simp only [eval] at hr ⊢
      exact eval_if_expression_below _ _ hb _ _ _ _ _ _ hr
    | identifier value => simpa only [eval] using hr
    | functionLiteral parameters body => simpa only [eval] using hr
    | callExpression function arguments =>
      simp only [eval, eval_expressions] at hr ⊢
      cases h1 : eval cfg fuel function env st with
      | error f => simp [h1] at hr
      | ok p =>
        rw [hb _ _ _ _ h1]
        rw [h1] at hr
        obtain ⟨fn, st1⟩ := p
        cases fn with
        | none => exact hr
        | some fn =>
          simp only at hr ⊢
          by_cases hk : fn.kind = .error
          · simpa only [hk, if_true] using hr
          · simp only [hk, if_false] at hr ⊢
            cases h2 : eval_expressions_loop (eval cfg fuel) env arguments [] st1 with
            | error f => simp [h2] at hr
            | ok q =>
              rw [eval_expressions_loop_below _ _ hb env _ _ _ _ h2]
              rw [h2] at hr
              obtain ⟨args, st2⟩ := q
              simp only at hr ⊢
              split at hr
              · simp at hr
              · exact hr
              · next hfalse =>
                cases h3 : apply_function cfg (eval cfg fuel) fn args st2 with
                | error f => simp [h3] at hr
                | ok c =>
                  rw [apply_function_below cfg _ _ hb _ _ _ _ h3]
                  rw [h3] at hr
                  exact hr
    | indexExpression left index =>
      simp only [eval] at hr ⊢
      cases h1 : eval cfg fuel left env st with
      | error f => simp [h1] at hr
      | ok p =>
        rw [hb _ _ _ _ h1]
        rw [h1] at hr
        obtain ⟨l, st1⟩ := p
        cases l with
        | none => exact hr
        | some l =>
          simp only at hr ⊢
          by_cases hk : l.kind = .error
          · simpa only [hk, if_true] using hr
          · simp only [hk, if_false] at hr ⊢
            cases h2 : eval cfg fuel index env st1 with
            | error f => simp [h2] at hr
            | ok q => rw [hb _ _ _ _ h2]; rw [h2] at hr; exact hr

end Fuel

section Forcing

/-- A Program of one statement finishes the result of the statement. -/
theorem program_of_one (cfg : Config) (fuel env : Nat) (s : Node) (st : State) :
    eval cfg (fuel + 1) (.program [s]) env st = finish_program (eval cfg fuel s env st) := by
  simp only [eval, eval_program, eval_program_loop]
  cases h : eval cfg fuel s env st with
  | error f => rfl
  | ok p =>
    obtain ⟨val, st1⟩ := p
    cases val with
    | none => rfl
    | some obj =>
      cases obj with
      | async a cell =>
        cases cell with
        | none => rfl
        | some o => cases o <;> rfl
      | _ => rfl

/-- A Program of a statement that yields no value and a second statement finishes the
result of the second statement. -/
theorem program_of_two (cfg : Config) (fuel env : Nat) (s1 s2 : Node) (st st1 : State)
    (h : eval cfg fuel s1 env st = .ok (none, st1)) :
    eval cfg (fuel + 1) (.program [s1, s2]) env st
      = finish_program (eval cfg fuel s2 env st1) := by
  rw [← program_of_one]
  simp only [eval, eval_program, eval_program_loop, h]

/-- The value a Program makes of the result of its last statement does not depend on the
state the statement left. -/
theorem finish_program_value (r1 r2 : Result)
    (h : r1.map Prod.fst = r2.map Prod.fst) :
    (finish_program r1).map Prod.fst = (finish_program r2).map Prod.fst := by
  cases r1 with
  | error f1 =>
    cases r2 with
    | error f2 => simpa [Except.map, finish_program] using h
    | ok p2 => simp [Except.map] at h
  | ok p1 =>
    cases r2 with
    | error f2 => simp [Except.map] at h
    | ok p2 =>
      obtain ⟨v1, s1⟩ := p1
      obtain ⟨v2, s2⟩ := p2
      simp only [Except.map, Except.ok.injEq] at h
      subst h
      cases v1 with
      | none => rfl
      | some obj =>
        cases obj with
        | async a cell =>
          cases cell with
          | none => rfl
          | some o => cases o <;> rfl
        | _ => rfl

/-- An expression statement evaluates to what its expression evaluates to. -/
theorem eval_expression_statment (cfg : Config) (fuel env : Nat) (e : Node) (st : State) :
    eval cfg (fuel + 1) (.expressionStatment e) env st = eval cfg fuel e env st := by
  simp only [eval]

/-- The `let` statement on the result of its expression. -/
theorem eval_let_statment (cfg : Config) (fuel env : Nat) (x : String) (e : Node)
    (st : State) :
    eval cfg (fuel + 1) (.letStatment x e) env st =
      match eval cfg fuel e env st with
      | .error f => .error f
      | .ok (none, _) => .error .null_deref
      | .ok (some val, st1) =>
        if val.kind = .error then .ok (some val, st1)
        else .ok (none, st1.set env x (some val)) := by
  simp only [eval]

/-- A Program whose first statement faults faults. -/
theorem program_of_fault (cfg : Config) (fuel env : Nat) (s : Node) (rest : List Node)
    (st : State) (f : Fault) (h : eval cfg fuel s env st = .error f) :
    eval cfg (fuel + 1) (.program (s :: rest)) env st = .error f := by
  simp only [eval, eval_program, eval_program_loop, h]

/-- A Program whose first statement yields an `Error` returns it. -/
theorem program_of_error (cfg : Config) (fuel env : Nat) (s : Node) (rest : List Node)
    (st st1 : State) (o : Object) (h : eval cfg fuel s env st = .ok (some o, st1))
    (ho : o.kind = .error) :
    eval cfg (fuel + 1) (.program (s :: rest)) env st = .ok (some o, st1) := by
  simp only [eval, eval_program, eval_program_loop, h]
  cases o <;> simp [Object.kind] at ho
  rfl

/-- On the schedule in which the task of a call has run when the call expression returns:
for every call expression that returns when it is evaluated (with the fuel at hand) in an
environment of the state, the program `call + 0` and the program `let r = call; r + 0`,
run from the same state in that environment, end in the same value or in the same fault.
This is a fact of that one schedule.  A task that reads the environment after the spawning
thread has bound `r`, as the task of `fn() { r }()` may, is not covered by it. -/
theorem pending_forcing_equivalence (cfg : Config) (fuel env : Nat) (call : Node)
    (st st2 : State) (v : Ptr)
    (hcall : eval cfg fuel call env st = .ok (v, st2)) (henv : env < st2.envs.length) :
    (eval cfg (fuel + 3) (forced_at_once call) env st).map Prod.fst
      = (eval cfg (fuel + 3) (forced_on_use call) env st).map Prod.fst := by
  have hcall1 : eval cfg (fuel + 1) call env st = .ok (v, st2) :=
    eval_fuel_le cfg fuel (fuel + 1) (Nat.le_succ fuel) _ _ _ _ hcall
  have hlit : ∀ s : State, eval cfg fuel (.integerLiteral 0) env s
      = .ok (some (.integer 0), s) := by
    cases fuel with
    | zero => simp [eval] at hcall
    | succ k => intro s; simp [eval]
  have hid : ∀ s : State, eval cfg fuel (.identifier "r") env s
      = eval_identifier cfg "r" env s := by
    cases fuel with
    | zero => simp [eval] at hcall
    | succ k => intro s; simp [eval]
  have hone : eval cfg (fuel + 3) (forced_at_once call) env st
      = finish_program (eval cfg (fuel + 1)
          (.infixExpression "+" call (.integerLiteral 0)) env st) := by
    rw [forced_at_once, program_of_one, eval_expression_statment]
  have hlet := eval_let_statment cfg (fuel + 1) env "r" call st
  rw [hcall1] at hlet
  rw [hone]
  cases v with
  | none =>
    have h1 : eval cfg (fuel + 1) (.infixExpression "+" call (.integerLiteral 0)) env st
        = .error .null_deref := by simp only [eval, hcall]
    rw [h1, forced_on_use, program_of_fault cfg (fuel + 2) env _ _ st .null_deref hlet]
    rfl
  | some o =>
    by_cases ho : o.kind = .error
    · have h1 : eval cfg (fuel + 1) (.infixExpression "+" call (.integerLiteral 0)) env st
          = .ok (some o, st2) := by simp only [eval, hcall, ho, if_true]
      simp only [ho, if_true] at hlet
      rw [h1, forced_on_use, program_of_error cfg (fuel + 2) env _ _ st st2 o hlet ho]
      cases o <;> simp [Object.kind] at ho
      rfl
    · have h1 : eval cfg (fuel + 1) (.infixExpression "+" call (.integerLiteral 0)) env st
          = (match eval_infix_expression cfg st2.next "+" o (.integer 0) with
            | .error f => .error f
            | .ok val => .ok (some val, st2.bump)) := by
        simp only [eval, hcall, ho, if_false, hlit]
        rfl
      simp only [ho, if_false] at hlet
      have hget : (st2.set env "r" (some o)).get env "r" = some o :=
        get_set_same st2 env "r" (some o) henv
      have hnext : (st2.set env "r" (some o)).next = st2.next := by
        simp only [State.set]; split <;> rfl
      have h2 : eval cfg (fuel + 1)
          (.infixExpression "+" (.identifier "r") (.integerLiteral 0)) env
          (st2.set env "r" (some o))
          = (match eval_infix_expression cfg st2.next "+" o (.integer 0) with
            | .error f => .error f
            | .ok val => .ok (some val, (st2.set env "r" (some o)).bump)) := by
        simp only [eval, hid, eval_identifier, hget, ho, if_false, hlit, hnext]
        rfl
      rw [h1, forced_on_use, program_of_two cfg (fuel + 2) env _ _ st _ hlet,
        eval_expression_statment, h2]
      apply finish_program_value
      cases eval_infix_expression cfg st2.next "+" o (.integer 0) <;> rfl

end Forcing

section ForcingExample

/-- On that schedule, with the call `fn(x) { x * 2 }(21)` both programs return 42. -/
theorem pending_forcing_equivalence_witness :
    (eval Config.plain 9 (forced_at_once doubling_call) 0 State.initial).map Prod.fst
      = .ok (some (.integer 42)) ∧
    (eval Config.plain 9 (forced_on_use doubling_call) 0 State.initial).map Prod.fst
      = .ok (some (.integer 42)) :=
  have h := pending_forcing_equivalence Config.plain 6 0 doubling_call State.initial _ _ rfl
    (by decide)
  ⟨rfl, h.symm.trans rfl⟩

end ForcingExample

section ProgramValue

/-- A Pending whose task returned a null pointer: the program `fn() {}()` has no result,
the forced pointer being dereferenced by `typeid`. -/
theorem call_of_empty_function_faults :
    eval_input Config.plain 5 call_of_empty_function State.initial = .error .null_deref :=
  rfl

end ProgramValue

section Callees

/-- Arguments none of which is a null pointer can be forced. -/
theorem unwrap_arguments_of_objects :
    ∀ args : List Ptr, (∀ a ∈ args, a ≠ none) → ∃ forced, unwrap_arguments args = .ok forced := by
  intro args
  induction args with
  | nil => intro _; exact ⟨[], rfl⟩
  | cons a args ih =>
    intro h
    obtain ⟨forced, hf⟩ := ih (fun x hx => h x (by simp [hx]))
    cases a with
    | none => exact absurd rfl (h none (by simp))
    | some obj => exact ⟨unwrap_async obj :: forced, by simp [unwrap_arguments, hf]⟩

/-- C25: applying a callee that, once forced, is an object that is neither a Function nor
a Builtin, to any list of arguments (objects, none a null pointer) yields the Null
constant and leaves the state as it is, whatever the evaluator; so the program `5(1, 2)`
returns Null. -/
theorem apply_non_function_is_null (cfg : Config) (ev : Evaluation) (fn callee : Object)
    (args : List Ptr) (st : State) (hfn : unwrap_async fn = some callee)
    (h1 : callee.kind ≠ .function) (h2 : callee.kind ≠ .builtin)
    (hargs : ∀ a ∈ args, a ≠ none) :
    apply_function cfg ev fn args st = .ok (some .null, st) ∧
    returned (eval_input Config.plain 4 call_of_integer State.initial) = some (some .null) := by
  obtain ⟨forced, hf⟩ := unwrap_arguments_of_objects args hargs
  refine ⟨?_, rfl⟩
  cases callee <;> first
    | exact absurd rfl h1
    | exact absurd rfl h2
    | simp [apply_function, hf, hfn]

/-- C25 (witness): applying the Integer 5 to the arguments 1 and 2 yields Null. -/
theorem apply_non_function_is_null_witness :
    apply_function Config.plain (eval Config.plain 0) (.integer 5)
      [some (.integer 1), some (.integer 2)] State.initial = .ok (some .null, State.initial) :=
  (apply_non_function_is_null Config.plain (eval Config.plain 0) (.integer 5) (.integer 5)
    [some (.integer 1), some (.integer 2)] State.initial rfl (by decide) (by decide)
    (by simp)).1

end Callees

section FirstLast

/-- C26: for every Array (of fewer than `2^63` elements) `first` returns what the index
expression with index 0 returns, and `last` what the index expression with index -1
returns; on the empty Array all four return the Null constant.  So `first([1, 2, 3])`
and `[1, 2, 3][0]` return 1, `last([1, 2, 3])` and `[1, 2, 3][-1]` return 3. -/
theorem first_last_agree_with_index (cfg : Config) (adr adr2 : Nat) (elems : List Ptr)
    (hn : (elems.length : Int) < 9223372036854775808) :
    builtin_first cfg adr [some (.array elems)]
      = eval_index_expression cfg adr2 (.array elems) (.integer 0) ∧
    builtin_last cfg adr [some (.array elems)]
      = eval_index_expression cfg adr2 (.array elems) (.integer (-1)) ∧
    builtin_first cfg adr [some (.array [])] = .ok (some .null) ∧
    builtin_last cfg adr [some (.array [])] = .ok (some .null) ∧
    eval_index_expression cfg adr2 (.array []) (.integer 0) = .ok (some .null) ∧
    eval_index_expression cfg adr2 (.array []) (.integer (-1)) = .ok (some .null) ∧
    returned (eval_input Config.plain 6 (builtin_on_array "first") State.initial)
      = some (some (.integer 1)) ∧
    returned (eval_input Config.plain 6 (index_on_array (.integerLiteral 0)) State.initial)
      = some (some (.integer 1)) ∧
    returned (eval_input Config.plain 6 (builtin_on_array "last") State.initial)
      = some (some (.integer 3)) ∧
    returned (eval_input Config.plain 6
        (index_on_array (.prefixExpression "-" (.integerLiteral 1))) State.initial)
      = some (some (.integer 3)) := by
  refine ⟨?_, ?_, rfl, rfl, rfl, rfl, rfl, rfl, rfl, rfl⟩
  · rw [eval_index_expression_array]
    cases elems with
    | nil => rfl
    | cons e rest =>
      have hlen : ¬ ((0 : Int) < 0 ∨ (0 : Int) ≥ ((e :: rest).length : Int)) := by
        simp only [List.length_cons]; omega
      simp only [builtin_first, if_neg (lt_irrefl (0 : Int)), if_neg hlen]
      rfl
  · rw [eval_index_expression_array]
    have hw : wrap64 (-1 + (elems.length : Int)) = -1 + (elems.length : Int) :=
      wrap64_of_in_int64 _ (by unfold in_int64; omega)
    have hidx0 : (if (-1 : Int) < 0 then wrap64 (-1 + (elems.length : Int)) else -1)
        = -1 + (elems.length : Int) := by
      rw [if_pos (by decide), hw]
    rw [hidx0]
    cases hl : elems.getLast? with
    | none =>
      have : elems = [] := List.getLast?_eq_none_iff.mp hl
      subst this
      rfl
    | some e =>
      have hne : elems ≠ [] := by intro h; subst h; simp at hl
      have hpos : 0 < elems.length := List.length_pos.mpr hne
      have hidx : (-1 + (elems.length : Int)).toNat = elems.length - 1 := by omega
      rw [if_neg (by omega), hidx]
      simp only [builtin_last, hl]
      rw [List.getLast?_eq_getElem?] at hl
      rw [List.getD_eq_getElem?_getD, hl]
      rfl

/-- C26 (witness): `first` and `last` on the Array `[1, 2]` against the indices 0 and -1. -/
theorem first_last_agree_with_index_witness :
    builtin_last Config.plain 0 [some (.array [some (.integer 1), some (.integer 2)])]
      = eval_index_expression Config.plain 1
          (.array [some (.integer 1), some (.integer 2)]) (.integer (-1)) :=
  (first_last_agree_with_index Config.plain 0 1 [some (.integer 1), some (.integer 2)]
    (by decide)).2.1

end FirstLast

end autumn
